import Mathlib

/-
Verification development for the Ticketing-System backend
(src/backend/server.py).  The Python handlers are shallowly embedded as
pure Lean functions over an explicit document-store state (`Db`).

Modelling conventions:
  * MongoDB collections are lists of documents; `find_one` is the first
    list element matching the filter, `find_one_and_update` replaces the
    first matching element.
  * Timestamps (`datetime.now(timezone.utc)`) are `Nat` values passed in
    as a `now` parameter.
  * Generated uuids are abstracted: freshly generated notification ids
    are modelled as the empty string (no specified behaviour observes
    them); ticket/action ids are passed in as parameters.
  * Python truthiness on optional strings (`if not assigned_to`) is the
    `truthy` predicate below (`None` and the empty string are falsy).
  * Awaited storage writes can raise; the `Faults` record injects a
    failure into the audit-log insert or into the n-th notification
    insert of a request, mirroring a raising `insert_one`.  A raised
    exception propagates exactly as in Python: the handler aborts, and
    the writes already performed stay in place.
  * The free-form text columns of the ticket models (sid, content,
    sms_details, vendor_trunks, is_lcr, root_cause, action_taken,
    internal_notes, issue fields, opened_via, ani, fas_type) are inert
    in every handler modelled here: they are copied by the same
    `update_dict` / diff logic as `rate` and `cost`.  The embedding
    keeps a representative subset of patchable fields (priority, volume,
    customer_trunk, destination, assigned_to, status, rate, cost) in
    the declaration order of `SMSTicketUpdate`.
-/

namespace TicketingSystem

/-- A ticket action entry (`TicketAction` model / `action_obj` dicts). -/
structure TicketAction where
  id : String
  text : String
  created_by : String
  created_by_username : String
  created_at : Nat
deriving DecidableEq, Repr

/-- A ticket document, shared shape of `SMSTicket` and `VoiceTicket`. -/
structure Ticket where
  id : String := ""
  ticket_number : String := ""
  date : Nat := 0
  assigned_at : Option Nat := none
  priority : String := ""
  volume : String := "0"
  customer : String := ""
  customer_id : String := ""
  customer_trunk : String := ""
  destination : Option String := none
  assigned_to : Option String := none
  status : String := ""
  rate : Option String := none
  cost : Option String := none
  created_by : String := ""
  updated_at : Nat := 0
  actions : List TicketAction := []
deriving DecidableEq, Repr

/-- A ticket update payload (`SMSTicketUpdate` / `VoiceTicketUpdate`):
every field optional; `None` fields are dropped from `update_dict`. -/
structure TicketPatch where
  priority : Option String := none
  volume : Option String := none
  customer_trunk : Option String := none
  destination : Option String := none
  assigned_to : Option String := none
  status : Option String := none
  rate : Option String := none
  cost : Option String := none
deriving DecidableEq, Repr

/-- A ticket creation payload (`SMSTicketCreate` / `VoiceTicketCreate`). -/
structure TicketCreate where
  priority : String := ""
  volume : String := "0"
  customer_id : String := ""
  customer_trunk : String := ""
  destination : Option String := none
  assigned_to : Option String := none
  status : String := "Unassigned"
  rate : Option String := none
  cost : Option String := none
deriving DecidableEq, Repr

/-- A department document: capability booleans plus the ticket-type
scope.  `department_type` is optional because the handlers read it with
`dept.get("department_type", "all")`. -/
structure Department where
  id : String := ""
  name : String := ""
  can_edit_users : Bool := false
  can_create_tickets : Bool := false
  can_edit_enterprises : Bool := false
  can_edit_tickets : Bool := false
  department_type : Option String := none
deriving DecidableEq, Repr

/-- A user document, restricted to the fields the embedded handlers
read.  Notification-preference flags are optional booleans because the
handlers read them with `user.get(key, True)`. -/
structure User where
  id : String := ""
  username : String := ""
  name : Option String := none
  department_id : Option String := none
  am_type : Option String := none
  notify_on_am_action : Option Bool := none
  notify_on_noc_ticket_modification : Option Bool := none
  notify_on_ticket_created : Option Bool := none
  notify_on_ticket_assigned : Option Bool := none
  notify_on_ticket_awaiting_vendor : Option Bool := none
  notify_on_ticket_awaiting_client : Option Bool := none
  notify_on_ticket_awaiting_am : Option Bool := none
  notify_on_ticket_resolved : Option Bool := none
  notify_on_ticket_unresolved : Option Bool := none
deriving DecidableEq, Repr

/-- A client (enterprise) document. -/
structure Client where
  id : String := ""
  name : String := ""
  assigned_am_id : Option String := none
deriving DecidableEq, Repr

/-- A persisted notification document (`ticket_notifications`
collection), restricted to the fields the claims observe. -/
structure NotificationDoc where
  id : String := ""
  ticket_id : String := ""
  ticket_number : String := ""
  ticket_type : String := ""
  assigned_to : String := ""
  modified_by : Option String := none
  modified_by_username : Option String := none
  message : String := ""
  event_type : String := ""
  read : Bool := false
  created_at : Nat := 0
deriving DecidableEq, Repr

/-- An audit-log record (`create_audit_log`), without the free-form
`changes` payload, which no claim observes. -/
structure AuditLog where
  user_id : String
  username : String
  action : String
  entity_type : String
  entity_id : String
  entity_name : String
  timestamp : Nat
deriving DecidableEq, Repr

/-- The document store. -/
structure Db where
  departments : List Department := []
  users : List User := []
  clients : List Client := []
  sms_tickets : List Ticket := []
  voice_tickets : List Ticket := []
  ticket_notifications : List NotificationDoc := []
  audit_logs : List AuditLog := []
deriving DecidableEq, Repr

/-- The resolved caller identity, as produced by `get_current_user`:
the user dict with the department doc attached (when found) and the
computed `role` string. -/
structure CurrentUser where
  id : String := ""
  username : String := ""
  department : Option Department := none
  department_id : Option String := none
  role : String := "unknown"
deriving DecidableEq, Repr

/-- An HTTPException: status code and detail. -/
structure HErr where
  status : Nat
  detail : String
deriving DecidableEq, Repr

/-- Python truthiness of an optional string: `None` and `""` are falsy. -/
def truthy : Option String → Bool
  | none => false
  | some s => !(s == "")

/-- Lookup helpers: `find_one` over the collections. -/
def findDept (db : Db) (did : String) : Option Department :=
  db.departments.find? (fun d => d.id == did)

def findDeptByName (db : Db) (nm : String) : Option Department :=
  db.departments.find? (fun d => d.name == nm)

def findUser (db : Db) (uid : String) : Option User :=
  db.users.find? (fun u => u.id == uid)

def findClient (db : Db) (cid : String) : Option Client :=
  db.clients.find? (fun c => c.id == cid)

def findById (l : List Ticket) (tid : String) : Option Ticket :=
  l.find? (fun t => t.id == tid)

/-- Replace the first ticket whose id matches (`find_one_and_update`). -/
def setTicket : List Ticket → String → Ticket → List Ticket
  | [], _, _ => []
  | t :: rest, tid, nt =>
      if t.id == tid then nt :: rest else t :: setTicket rest tid nt

/-- Embedding of `get_user_department`: prefer the attached department
dict, else look the department id up in the store. -/
def get_user_department (cu : CurrentUser) (db : Db) : Option Department :=
  match cu.department with
  | some d => some d
  | none =>
    match cu.department_id with
    | some did => findDept db did
    | none => none

/-- Embedding of `get_user_role_from_department`. -/
def get_user_role_from_department : Option Department → String
  | none => "unknown"
  | some d =>
    if d.can_edit_users then "admin"
    else if d.can_create_tickets && !d.can_edit_enterprises then "am"
    else if d.can_edit_tickets then "noc"
    else "unknown"

/-- Embedding of `get_user_ticket_type`. -/
def get_user_ticket_type : Option Department → String
  | none => "all"
  | some d => d.department_type.getD "all"

/-- Role resolution as worded by the spec (for the refinement claim C2):
first match wins among the four numbered rules. -/
def resolveRoleSpec : Option Department → String
  | none => "unknown"
  | some d =>
    if d.can_edit_users = true then "admin"
    else if d.can_create_tickets = true ∧ d.can_edit_enterprises = false then "am"
    else if d.can_edit_tickets = true then "noc"
    else "unknown"

/-- Condition under which `validate_ticket_status` raises the 400
ValidationError: status `Assigned` with a falsy assignee. -/
def badAssignedStatus (status : String) (assigned : Option String) : Prop :=
  status = "Assigned" ∧ truthy assigned = false

instance (status : String) (assigned : Option String) :
    Decidable (badAssignedStatus status assigned) := by
  unfold badAssignedStatus; infer_instance

/-- Fault model for awaited storage writes inside one request: the
audit-log insert raises, or the n-th notification insert raises. -/
structure Faults where
  audit_fail : Bool := false
  notif_fail : Option Nat := none
deriving DecidableEq, Repr

def noFaults : Faults := {}

/-- Per-request context: the evolving store plus the count of
notification inserts performed so far (used to index faults). -/
structure Ctx where
  db : Db
  nCount : Nat := 0
deriving DecidableEq, Repr

/-- Result of one awaited side-effect step: the context after it, plus
the exception it raised, if any. -/
abbrev Step := Ctx × Option HErr

def err500 : HErr := ⟨500, "Internal Server Error"⟩

/-- Embedding of `db.ticket_notifications.insert_one` (can raise). -/
def insert_notification (f : Faults) (c : Ctx) (n : NotificationDoc) : Step :=
  if f.notif_fail = some c.nCount then (c, some err500)
  else
    (⟨{ c.db with
          ticket_notifications := c.db.ticket_notifications ++ [n] },
      c.nCount + 1⟩, none)

/-- Embedding of `create_audit_log` (a plain awaited insert, no
try/except around it anywhere in the ticket handlers). -/
def create_audit_log (f : Faults) (c : Ctx) (a : AuditLog) : Step :=
  if f.audit_fail then (c, some err500)
  else
    (⟨{ c.db with audit_logs := c.db.audit_logs ++ [a] }, c.nCount⟩, none)

/-- Sequencing of awaited steps: a raised exception propagates, skipping
everything after it. -/
def seqStep (s : Step) (k : Ctx → Step) : Step :=
  match s with
  | (c, some e) => (c, some e)
  | (c, none) => k c

/-- Insert a list of notification documents one by one, aborting at the
first raising insert (the Python for-loops over recipients). -/
def insertMany (f : Faults) (c : Ctx) : List NotificationDoc → Step
  | [] => (c, none)
  | d :: rest => seqStep (insert_notification f c d) (fun c2 => insertMany f c2 rest)

/-- Heterogeneous field values, for the `changes` diff entries. -/
inductive FieldVal
  | vs : String → FieldVal
  | vos : Option String → FieldVal
  | vt : Nat → FieldVal
  | vot : Option Nat → FieldVal
deriving DecidableEq, Repr

abbrev Change := String × FieldVal × FieldVal

/-- Diff entry for a non-optional string column. -/
def diffS (nm : String) (pv : Option String) (old : String) : List Change :=
  match pv with
  | none => []
  | some v => if old ≠ v then [(nm, .vs old, .vs v)] else []

/-- Diff entry for an optional string column (the stored value may be
`None`; the patch value, once present, is a string). -/
def diffOS (nm : String) (pv : Option String) (old : Option String) : List Change :=
  match pv with
  | none => []
  | some v => if old ≠ some v then [(nm, .vos old, .vos (some v))] else []

/-- The `changes` dict of `update_sms_ticket` / `update_voice_ticket`,
iterated in `update_dict` insertion order: the patch fields in model
declaration order, then the stamped `assigned_at`, then `updated_at`. -/
def buildChanges (ex : Ticket) (p : TicketPatch) (stamp : Bool) (now : Nat) :
    List Change :=
  diffS "priority" p.priority ex.priority ++
  diffS "volume" p.volume ex.volume ++
  diffS "customer_trunk" p.customer_trunk ex.customer_trunk ++
  diffOS "destination" p.destination ex.destination ++
  diffOS "assigned_to" p.assigned_to ex.assigned_to ++
  diffS "status" p.status ex.status ++
  diffOS "rate" p.rate ex.rate ++
  diffOS "cost" p.cost ex.cost ++
  (if stamp then
    (if ex.assigned_at ≠ some now then
      [("assigned_at", .vot ex.assigned_at, .vot (some now))] else [])
   else []) ++
  (if ex.updated_at ≠ now then
    [("updated_at", .vt ex.updated_at, .vt now)] else [])

/-- Apply `update_dict` (`$set`) to a ticket document, including the
conditional `assigned_at` stamp and the unconditional `updated_at`. -/
def applyPatch (t : Ticket) (p : TicketPatch) (stamp : Bool) (now : Nat) : Ticket :=
  { t with
    priority := p.priority.getD t.priority
    volume := p.volume.getD t.volume
    customer_trunk := p.customer_trunk.getD t.customer_trunk
    destination := match p.destination with | some v => some v | none => t.destination
    assigned_to := match p.assigned_to with | some v => some v | none => t.assigned_to
    status := p.status.getD t.status
    rate := match p.rate with | some v => some v | none => t.rate
    cost := match p.cost with | some v => some v | none => t.cost
    assigned_at := if stamp then some now else t.assigned_at
    updated_at := now }

/-- Rendering of a diff value inside the noc_modification message
(Python `str()`; datetimes abstracted to their numeric timestamp). -/
def FieldVal.render : FieldVal → String
  | .vs s => s
  | .vos none => "None"
  | .vos (some s) => s
  | .vt n => toString n
  | .vot none => "None"
  | .vot (some n) => toString n

/-- One line of the change description. -/
def renderChange (ch : Change) : String :=
  ch.1 ++ ": " ++ ch.2.1.render ++ " -> " ++ ch.2.2.render

/-- The change summary string: at most 3 changes, plus a "+N more"
suffix when more fields changed. -/
def changeSummary (changes : List Change) : String :=
  let details := changes.map renderChange
  String.intercalate "; " (details.take 3) ++
    (if details.length > 3 then
      "... (+" ++ toString (details.length - 3) ++ " more)" else "")

/-- Python `a or b` for an optional string against a default. -/
def strOr (a : Option String) (b : String) : String :=
  match a with
  | some s => if s = "" then b else s
  | none => b

/-- Python `a or b` for two strings. -/
def strOrS (a b : String) : String :=
  if a = "" then b else a

/-- Embedding of `create_ticket_modification_notification`: one
persisted `ticket_modification` document for the assignee. -/
def create_ticket_modification_notification (f : Faults) (c : Ctx)
    (tid tnum tt recipient modified_by modified_by_username : String)
    (now : Nat) : Step :=
  insert_notification f c {
    id := "", ticket_id := tid, ticket_number := tnum, ticket_type := tt,
    assigned_to := recipient, modified_by := some modified_by,
    modified_by_username := some modified_by_username,
    message := "Ticket " ++ tnum ++ " was modified by " ++ modified_by_username,
    event_type := "ticket_modification", read := false, created_at := now }

/-- The `preference_map` of `notify_ams_about_ticket`: which preference
flag gates each AM event kind; `none` for unmapped event kinds. -/
def amPrefVal (u : User) : String → Option (Option Bool)
  | "created" => some u.notify_on_ticket_created
  | "assigned" => some u.notify_on_ticket_assigned
  | "awaiting_vendor" => some u.notify_on_ticket_awaiting_vendor
  | "awaiting_client" => some u.notify_on_ticket_awaiting_client
  | "awaiting_am" => some u.notify_on_ticket_awaiting_am
  | "resolved" => some u.notify_on_ticket_resolved
  | "unresolved" => some u.notify_on_ticket_unresolved
  | _ => none

/-- The `message_map` of `notify_ams_about_ticket`. -/
def amStatusMessage (et tn cust noc_name : String) : String :=
  match et with
  | "created" => "New ticket " ++ tn ++ " for " ++ cust ++ " - Waiting for NOC assignment"
  | "assigned" => "Ticket " ++ tn ++ " for " ++ cust ++ " has been assigned to " ++ noc_name
  | "awaiting_vendor" => "Ticket " ++ tn ++ " for " ++ cust ++ " is awaiting vendor response"
  | "awaiting_client" => "Ticket " ++ tn ++ " for " ++ cust ++ " is awaiting client response"
  | "awaiting_am" => "Ticket " ++ tn ++ " for " ++ cust ++ " requires your attention"
  | "resolved" => "Ticket " ++ tn ++ " for " ++ cust ++ " has been resolved by " ++ noc_name
  | "unresolved" => "Ticket " ++ tn ++ " for " ++ cust ++ " has become unresolved"
  | _ => "Ticket " ++ tn ++ " updated"

/-- The check `if am_type and am_type != ticket_type` (truthy AM type
mismatching the ticket kind). -/
def amTypeMismatch (a : Option String) (tt : String) : Bool :=
  match a with
  | some ty => !(ty == "") && !(ty == tt)
  | none => false

/-- Embedding of `notify_ams_about_ticket`: at most one persisted
notification for the enterprise assigned AM, gated by the per-event
preference flag. -/
def notify_ams_about_ticket (f : Faults) (c : Ctx) (t : Ticket)
    (et tt created_by : String) (now : Nat) : Step :=
  if t.customer_id = "" then (c, none)
  else
    match findClient c.db t.customer_id with
    | none => (c, none)
    | some cl =>
      match cl.assigned_am_id with
      | none => (c, none)
      | some am_id =>
        if am_id = "" then (c, none)
        else if created_by ≠ "" ∧ am_id = created_by then (c, none)
        else
          match findUser c.db am_id with
          | none => (c, none)
          | some am =>
            if amTypeMismatch am.am_type tt then (c, none)
            else
              match amPrefVal am et with
              | none => (c, none)
              | some prefFlag =>
                if prefFlag.getD true = false then (c, none)
                else
                  let noc_name :=
                    if truthy t.assigned_to ∧ et ≠ "created" then
                      match findUser c.db (t.assigned_to.getD "") with
                      | some nu => strOr nu.name (strOrS nu.username "NOC")
                      | none => ""
                    else ""
                  insert_notification f c {
                    id := "", ticket_id := t.id,
                    ticket_number := t.ticket_number, ticket_type := tt,
                    assigned_to := am_id, modified_by := none,
                    modified_by_username := none,
                    message := amStatusMessage et t.ticket_number t.customer noc_name,
                    event_type := et, read := false, created_at := now }

/-- The current NOC roster: the department named NOC, and the users
whose `department_id` matches it (`db.users.find(...).to_list(100)`). -/
def nocUsers (db : Db) (nocDeptId : String) : List User :=
  (db.users.filter (fun u => u.department_id == some nocDeptId)).take 100

/-- Recipient gate of the am_action loop: preference not false
(defaulting to notify) and a truthy user id. -/
def amActionKeep (u : User) : Bool :=
  (u.notify_on_am_action.getD true) && !(u.id == "")

/-- The am_action message, with the action text truncated to 50
characters plus an ellipsis when longer. -/
def amActionMessage (am_name tn cust text : String) : String :=
  if text.length > 50 then
    "AM " ++ am_name ++ " added action to ticket " ++ tn ++ " for " ++ cust ++
      ": " ++ (text.take 50) ++ "..."
  else
    "AM " ++ am_name ++ " added action to ticket " ++ tn ++ " for " ++ cust ++
      ": " ++ text

/-- One persisted am_action notification document. -/
def amActionDoc (t : Ticket) (tt am_name created_by text : String) (now : Nat)
    (u : User) : NotificationDoc :=
  { id := "", ticket_id := t.id, ticket_number := t.ticket_number,
    ticket_type := tt, assigned_to := u.id, modified_by := some created_by,
    modified_by_username := some am_name,
    message := amActionMessage am_name t.ticket_number t.customer text,
    event_type := "am_action", read := false, created_at := now }

/-- Embedding of `notify_noc_about_am_action`: one notification per
current NOC member passing the gate, inserted sequentially. -/
def notify_noc_about_am_action (f : Faults) (c : Ctx) (t : Ticket)
    (action_text action_created_by tt : String) (now : Nat) : Step :=
  match findDeptByName c.db "NOC" with
  | none => (c, none)
  | some nd =>
    let roster := nocUsers c.db nd.id
    if roster = [] then (c, none)
    else
      let am_name :=
        match findUser c.db action_created_by with
        | some au => strOr au.name (strOrS au.username "AM")
        | none => "AM"
      insertMany f c ((roster.filter amActionKeep).map
        (amActionDoc t tt am_name action_created_by action_text now))

/-- Recipient gate of the noc_modification loop: preference not false,
truthy user id, and not the modifier themself. -/
def nocModKeep (modified_by : String) (u : User) : Bool :=
  (u.notify_on_noc_ticket_modification.getD true) && !(u.id == "") &&
    !(u.id == modified_by)

/-- One persisted noc_modification notification document. -/
def nocModDoc (t : Ticket) (tt modified_by modified_by_username : String)
    (changes : List Change) (now : Nat) (u : User) : NotificationDoc :=
  { id := "", ticket_id := t.id, ticket_number := t.ticket_number,
    ticket_type := tt, assigned_to := u.id, modified_by := some modified_by,
    modified_by_username := some modified_by_username,
    message := "Ticket " ++ t.ticket_number ++ " for " ++ t.customer ++
      " was modified by " ++ modified_by_username ++ ": " ++
      changeSummary changes,
    event_type := "noc_modification", read := false, created_at := now }

/-- Embedding of `notify_noc_about_noc_modification`. -/
def notify_noc_about_noc_modification (f : Faults) (c : Ctx) (t : Ticket)
    (modified_by modified_by_username : String) (changes : List Change)
    (tt : String) (now : Nat) : Step :=
  match findDeptByName c.db "NOC" with
  | none => (c, none)
  | some nd =>
    let roster := nocUsers c.db nd.id
    if roster = [] then (c, none)
    else
      insertMany f c ((roster.filter (nocModKeep modified_by)).map
        (nocModDoc t tt modified_by modified_by_username changes now))

/-- The two structurally identical ticket kinds. -/
inductive TicketKind
  | sms
  | voice
deriving DecidableEq, Repr

/-- The ticket_type string passed to the notification helpers. -/
def TicketKind.str : TicketKind → String
  | .sms => "sms"
  | .voice => "voice"

/-- The audit entity_type for each kind. -/
def TicketKind.entity : TicketKind → String
  | .sms => "ticket_sms"
  | .voice => "ticket_voice"

/-- The collection holding each kind. -/
def Db.coll (db : Db) : TicketKind → List Ticket
  | .sms => db.sms_tickets
  | .voice => db.voice_tickets

/-- Replace the collection holding each kind. -/
def Db.setColl (db : Db) : TicketKind → List Ticket → Db
  | .sms, l => { db with sms_tickets := l }
  | .voice, l => { db with voice_tickets := l }

/-- Which AM notification event kind a new status maps to in the
status-change branch of the update handlers. -/
def statusNotifType : String → Option String
  | "Assigned" => some "assigned"
  | "Awaiting Vendor" => some "awaiting_vendor"
  | "Awaiting Client" => some "awaiting_client"
  | "Awaiting AM" => some "awaiting_am"
  | "Resolved" => some "resolved"
  | "Unresolved" => some "unresolved"
  | _ => none

/-- Effective status of an update: the patch field, defaulting to the
existing document (`update_dict.get("status", existing.get("status"))`). -/
def effStatus (ex : Ticket) (p : TicketPatch) : String :=
  p.status.getD ex.status

/-- Effective assignee of an update. -/
def effAssigned (ex : Ticket) (p : TicketPatch) : Option String :=
  match p.assigned_to with
  | some v => some v
  | none => ex.assigned_to

/-- The `assigned_at` stamping condition: truthy effective assignee,
effective status `Assigned`, and the assignee is new or changed. -/
def stampCond (ex : Ticket) (p : TicketPatch) : Bool :=
  decide (truthy (effAssigned ex p) = true ∧ effStatus ex p = "Assigned" ∧
    (truthy ex.assigned_to = false ∨ ex.assigned_to ≠ effAssigned ex p))

/-- The `should_notify` condition of the update handlers, computed on
the PRIOR document: truthy assignee, status `Assigned`, and the actor
is not that assignee. -/
def shouldNotify (ex : Ticket) (cuId : String) : Prop :=
  truthy ex.assigned_to = true ∧ ex.status = "Assigned" ∧
    ex.assigned_to ≠ some cuId

instance (ex : Ticket) (cuId : String) : Decidable (shouldNotify ex cuId) := by
  unfold shouldNotify; infer_instance

/-- The role of the acting user, as recomputed inside the update
handlers. -/
def modifierRole (cu : CurrentUser) (db : Db) : String :=
  get_user_role_from_department (get_user_department cu db)

/-- The ticket_modification document inserted for the prior assignee. -/
def tmodDocOf (ex : Ticket) (tid tt cuId cuUsername : String) (now : Nat) :
    NotificationDoc :=
  { id := "", ticket_id := tid, ticket_number := ex.ticket_number,
    ticket_type := tt, assigned_to := ex.assigned_to.getD "",
    modified_by := some cuId, modified_by_username := some cuUsername,
    message := "Ticket " ++ ex.ticket_number ++ " was modified by " ++ cuUsername,
    event_type := "ticket_modification", read := false, created_at := now }

/-- The notifications `notify_ams_about_ticket` would persist (zero or
one), as a pure function of the collections it reads. -/
def amDocsFor (clients : List Client) (users : List User) (t : Ticket)
    (et tt created_by : String) (now : Nat) : List NotificationDoc :=
  if t.customer_id = "" then []
  else
    match clients.find? (fun c => c.id == t.customer_id) with
    | none => []
    | some cl =>
      match cl.assigned_am_id with
      | none => []
      | some am_id =>
        if am_id = "" then []
        else if created_by ≠ "" ∧ am_id = created_by then []
        else
          match users.find? (fun u => u.id == am_id) with
          | none => []
          | some am =>
            if amTypeMismatch am.am_type tt then []
            else
              match amPrefVal am et with
              | none => []
              | some prefFlag =>
                if prefFlag.getD true = false then []
                else
                  let noc_name :=
                    if truthy t.assigned_to ∧ et ≠ "created" then
                      match users.find? (fun u => u.id == t.assigned_to.getD "") with
                      | some nu => strOr nu.name (strOrS nu.username "NOC")
                      | none => ""
                    else ""
                  [{ id := "", ticket_id := t.id,
                     ticket_number := t.ticket_number, ticket_type := tt,
                     assigned_to := am_id, modified_by := none,
                     modified_by_username := none,
                     message := amStatusMessage et t.ticket_number t.customer noc_name,
                     event_type := et, read := false, created_at := now }]

/-- The NOC roster over a plain user list. -/
def nocUsersL (users : List User) (nocDeptId : String) : List User :=
  (users.filter (fun u => u.department_id == some nocDeptId)).take 100

/-- The notifications `notify_noc_about_noc_modification` would
persist, as a pure function of the collections it reads. -/
def nocModDocsFor (departments : List Department) (users : List User)
    (t : Ticket) (modified_by mbu : String) (changes : List Change)
    (tt : String) (now : Nat) : List NotificationDoc :=
  match departments.find? (fun d => d.name == "NOC") with
  | none => []
  | some nd =>
    ((nocUsersL users nd.id).filter (nocModKeep modified_by)).map
      (nocModDoc t tt modified_by mbu changes now)

/-- The notifications `notify_noc_about_am_action` would persist, as a
pure function of the collections it reads. -/
def amActionDocsFor (departments : List Department) (users : List User)
    (t : Ticket) (text created_by tt : String) (now : Nat) :
    List NotificationDoc :=
  match departments.find? (fun d => d.name == "NOC") with
  | none => []
  | some nd =>
    let am_name :=
      match users.find? (fun u => u.id == created_by) with
      | some au => strOr au.name (strOrS au.username "AM")
      | none => "AM"
    ((nocUsersL users nd.id).filter amActionKeep).map
      (amActionDoc t tt am_name created_by text now)

/-- The audit record of a ticket update. -/
def updateAuditRec (k : TicketKind) (cu : CurrentUser) (tid : String)
    (result : Ticket) (now : Nat) : AuditLog :=
  { user_id := cu.id, username := cu.username, action := "update",
    entity_type := k.entity, entity_id := tid,
    entity_name := result.ticket_number, timestamp := now }

/-- All notifications a fault-free ticket update appends, in insertion
order.  The helper lookups (clients, users, departments) are stable
across the update, so they are taken on the pre-update store. -/
def updateNotifs (k : TicketKind) (db : Db) (tid : String) (ex : Ticket)
    (p : TicketPatch) (cu : CurrentUser) (now : Nat) :
    List NotificationDoc :=
  let stamp := stampCond ex p
  let changes := buildChanges ex p stamp now
  let result := applyPatch ex p stamp now
  let ns := effStatus ex p
  (if shouldNotify ex cu.id then
    [tmodDocOf ex tid k.str cu.id cu.username now] else []) ++
  (if shouldNotify ex cu.id ∧ modifierRole cu db = "noc" ∧ changes ≠ [] then
    nocModDocsFor db.departments db.users ex cu.id cu.username changes k.str now
   else []) ++
  (if ns ≠ "" ∧ ns ≠ ex.status then
    match statusNotifType ns with
    | some nt => amDocsFor db.clients db.users result nt k.str cu.id now
    | none => []
   else [])

/-- The store a fault-free ticket update leaves behind. -/
def updFinalDb (k : TicketKind) (db : Db) (tid : String) (ex : Ticket)
    (p : TicketPatch) (cu : CurrentUser) (now : Nat) : Db :=
  let stamp := stampCond ex p
  let changes := buildChanges ex p stamp now
  let result := applyPatch ex p stamp now
  let base := db.setColl k (setTicket (db.coll k) tid result)
  { base with
    audit_logs := base.audit_logs ++
      (if changes ≠ [] then [updateAuditRec k cu tid result now] else []),
    ticket_notifications := base.ticket_notifications ++
      updateNotifs k db tid ex p cu now }

/-- Everything `update_sms_ticket` / `update_voice_ticket` do from the
`find_one` of the existing ticket onwards; the two handlers differ only
in the guards before this point, the collection, and the kind strings.
The sequencing and conditions mirror the Python line by line. -/
def update_ticket_core (k : TicketKind) (f : Faults) (db : Db)
    (tid : String) (p : TicketPatch) (cu : CurrentUser) (now : Nat) :
    Db × Except HErr Ticket :=
  match findById (db.coll k) tid with
  | none => (db, .error ⟨404, "Ticket not found"⟩)
  | some ex =>
    if badAssignedStatus (effStatus ex p) (effAssigned ex p) then
      (db, .error ⟨400, "Status cannot be Assigned unless a NOC member is assigned"⟩)
    else
      let stamp := stampCond ex p
      let result := applyPatch ex p stamp now
      let changes := buildChanges ex p stamp now
      let db1 := db.setColl k (setTicket (db.coll k) tid result)
      let c0 : Ctx := ⟨db1, 0⟩
      let afterAudit : Step :=
        if changes ≠ [] then
          create_audit_log f c0 (updateAuditRec k cu tid result now)
        else (c0, none)
      let afterNotify : Step :=
        seqStep afterAudit (fun c =>
          if shouldNotify ex cu.id then
            seqStep
              (create_ticket_modification_notification f c tid
                ex.ticket_number k.str (ex.assigned_to.getD "") cu.id
                cu.username now)
              (fun c2 =>
                if modifierRole cu db = "noc" ∧ changes ≠ [] then
                  notify_noc_about_noc_modification f c2 ex cu.id
                    cu.username changes k.str now
                else (c2, none))
          else (c, none))
      let afterStatus : Step :=
        seqStep afterNotify (fun c =>
          if effStatus ex p ≠ "" ∧ effStatus ex p ≠ ex.status then
            match statusNotifType (effStatus ex p) with
            | some nt => notify_ams_about_ticket f c result nt k.str cu.id now
            | none => (c, none)
          else (c, none))
      match afterStatus with
      | (c, some e) => (c.db, .error e)
      | (c, none) => (c.db, .ok result)

/-- Agreement of two stores on everything except notifications and
audit logs (used to show downstream failures never touch the primary
collections). -/
def sameCore (a b : Db) : Prop :=
  a.departments = b.departments ∧ a.users = b.users ∧
  a.clients = b.clients ∧ a.sms_tickets = b.sms_tickets ∧
  a.voice_tickets = b.voice_tickets

/-- Agreement of two stores on the collections the notification
helpers read. -/
def sameLookups (a b : Db) : Prop :=
  a.departments = b.departments ∧ a.users = b.users ∧ a.clients = b.clients

/-- Embedding of `update_sms_ticket`: department-type scope check and
`can_edit_tickets` permission check, then the shared core. -/
def update_sms_ticket (f : Faults) (db : Db) (tid : String)
    (p : TicketPatch) (cu : CurrentUser) (now : Nat) :
    Db × Except HErr Ticket :=
  let dept := get_user_department cu db
  let tt := get_user_ticket_type dept
  if tt ≠ "all" ∧ tt ≠ "sms" then
    (db, .error ⟨403, "You do not have access to SMS tickets"⟩)
  else if (match dept with | none => true | some d => !d.can_edit_tickets) then
    (db, .error ⟨403, "Account Managers cannot modify tickets"⟩)
  else update_ticket_core .sms f db tid p cu now

/-- Embedding of `update_voice_ticket`: only the AM-role check guards
the core (no department-type scope check, no `can_edit_tickets` check
appears in the source of this handler). -/
def update_voice_ticket (f : Faults) (db : Db) (tid : String)
    (p : TicketPatch) (cu : CurrentUser) (now : Nat) :
    Db × Except HErr Ticket :=
  let dept := get_user_department cu db
  let user_role :=
    match dept with
    | some d => get_user_role_from_department (some d)
    | none => "unknown"
  if user_role = "am" then
    (db, .error ⟨403, "Account Managers cannot modify tickets"⟩)
  else update_ticket_core .voice f db tid p cu now

/-- The ticket number generator (`generate_ticket_number`), with the
date rendering abstracted to the numeric timestamp. -/
def generate_ticket_number (date : Nat) (tid : String) : String :=
  "#" ++ toString date ++ tid.take 8

/-- The ticket document a fault-free create persists. -/
def createdTicket (payload : TicketCreate) (clName cuId : String)
    (now : Nat) (newId : String) : Ticket :=
  { id := newId, ticket_number := generate_ticket_number now newId,
    date := now, assigned_at := none, priority := payload.priority,
    volume := payload.volume, customer := clName,
    customer_id := payload.customer_id,
    customer_trunk := payload.customer_trunk,
    destination := payload.destination,
    assigned_to := payload.assigned_to, status := payload.status,
    rate := payload.rate, cost := payload.cost, created_by := cuId,
    updated_at := now, actions := [] }

/-- Notifications a fault-free create appends (taken on the pre-create
store, which agrees with the post-create store on every collection the
notifier reads). -/
def createNotifs (k : TicketKind) (db : Db) (t : Ticket) (cuId : String)
    (now : Nat) : List NotificationDoc :=
  amDocsFor db.clients db.users t "created" k.str cuId now ++
    (if truthy t.assigned_to then
      amDocsFor db.clients db.users t "assigned" k.str cuId now
     else [])

/-- The audit record of a ticket create. -/
def createAuditRec (k : TicketKind) (cu : CurrentUser) (newId : String)
    (t : Ticket) (now : Nat) : AuditLog :=
  { user_id := cu.id, username := cu.username, action := "create",
    entity_type := k.entity, entity_id := newId,
    entity_name := t.ticket_number, timestamp := now }

/-- Everything `create_sms_ticket` / `create_voice_ticket` do from the
status validation onwards. -/
def create_ticket_core (k : TicketKind) (f : Faults) (db : Db)
    (payload : TicketCreate) (cu : CurrentUser) (now : Nat)
    (newId : String) : Db × Except HErr Ticket :=
  if badAssignedStatus payload.status payload.assigned_to then
    (db, .error ⟨400, "Status cannot be Assigned unless a NOC member is assigned"⟩)
  else
    match findClient db payload.customer_id with
    | none => (db, .error ⟨404, "Customer not found"⟩)
    | some cl =>
      let t : Ticket := createdTicket payload cl.name cu.id now newId
      let db1 := db.setColl k (db.coll k ++ [t])
      let c0 : Ctx := ⟨db1, 0⟩
      let afterAudit : Step :=
        create_audit_log f c0 (createAuditRec k cu newId t now)
      let afterCreated : Step :=
        seqStep afterAudit (fun c =>
          notify_ams_about_ticket f c t "created" k.str cu.id now)
      let afterAssigned : Step :=
        seqStep afterCreated (fun c =>
          if truthy t.assigned_to then
            notify_ams_about_ticket f c t "assigned" k.str cu.id now
          else (c, none))
      match afterAssigned with
      | (c, some e) => (c.db, .error e)
      | (c, none) => (c.db, .ok t)

/-- Embedding of `create_sms_ticket`: scope and `can_create_tickets`
checks, then the shared core. -/
def create_sms_ticket (f : Faults) (db : Db) (payload : TicketCreate)
    (cu : CurrentUser) (now : Nat) (newId : String) :
    Db × Except HErr Ticket :=
  let dept := get_user_department cu db
  let tt := get_user_ticket_type dept
  if tt ≠ "all" ∧ tt ≠ "sms" then
    (db, .error ⟨403, "You do not have access to SMS tickets"⟩)
  else if (match dept with | none => true | some d => !d.can_create_tickets) then
    (db, .error ⟨403, "Account Managers cannot create tickets"⟩)
  else create_ticket_core .sms f db payload cu now newId

/-- Embedding of `create_voice_ticket`: only the stored-role AM check
guards the core (no department-type scope check in the source). -/
def create_voice_ticket (f : Faults) (db : Db) (payload : TicketCreate)
    (cu : CurrentUser) (now : Nat) (newId : String) :
    Db × Except HErr Ticket :=
  if cu.role = "am" then
    (db, .error ⟨403, "Account Managers cannot create tickets"⟩)
  else create_ticket_core .voice f db payload cu now newId

/-- Embedding of `add_sms_ticket_action` / `add_voice_ticket_action`.
The source has no authorization check at all here: any authenticated
user appends the action; the AM role only decides whether the NOC
am_action fan-out runs.  `find_one_and_update` with no
`return_document` returns the pre-update document, which is what is
passed to the notifier.  When the user document is missing,
`get_user_department(None)` raises (an AttributeError surfacing as a
500) after the action and audit writes already happened. -/
def actAuditRec (k : TicketKind) (cu : CurrentUser) (username aid : String)
    (t : Ticket) (now : Nat) : AuditLog :=
  { user_id := cu.id, username := username, action := "create",
    entity_type := k.entity ++ "_action", entity_id := aid,
    entity_name := t.ticket_number ++ " - Action", timestamp := now }

def add_ticket_action (k : TicketKind) (f : Faults) (db : Db)
    (tid text : String) (cu : CurrentUser) (now : Nat) (aid : String) :
    Db × Except HErr TicketAction :=
  let userOpt := findUser db cu.id
  let username :=
    match userOpt with
    | some u => u.username
    | none => "Unknown"
  let act : TicketAction := {
    id := aid, text := text, created_by := cu.id,
    created_by_username := username, created_at := now }
  match findById (db.coll k) tid with
  | none => (db, .error ⟨404, "Ticket not found"⟩)
  | some t =>
    let t2 := { t with actions := t.actions ++ [act], updated_at := now }
    let db1 := db.setColl k (setTicket (db.coll k) tid t2)
    let c0 : Ctx := ⟨db1, 0⟩
    match create_audit_log f c0 (actAuditRec k cu username aid t now) with
    | (c, some e) => (c.db, .error e)
    | (c, none) =>
      match userOpt with
      | none => (c.db, .error err500)
      | some u =>
        let user_role := get_user_role_from_department
          (match u.department_id with
           | some did => findDept c.db did
           | none => none)
        if user_role = "am" then
          match notify_noc_about_am_action f c t text cu.id k.str now with
          | (c2, some e) => (c2.db, .error e)
          | (c2, none) => (c2.db, .ok act)
        else (c.db, .ok act)

/-- The `$set {"read": True}` patch: only the read flag changes. -/
def setRead (n : NotificationDoc) : NotificationDoc :=
  { n with read := true }

/-- Mark the first notification matching id and recipient as read. -/
def markFirst : List NotificationDoc → String → String →
    Option (List NotificationDoc)
  | [], _, _ => none
  | n :: rest, nid, uid =>
    if n.id = nid ∧ n.assigned_to = uid then
      some ({ n with read := true } :: rest)
    else
      (markFirst rest nid uid).map (fun l => n :: l)

/-- Embedding of `mark_notification_as_read`:
`find_one_and_update({"id": nid, "assigned_to": uid}, {"$set": {"read": True}})`,
404 when no document matches. -/
def mark_notification_as_read (db : Db) (nid uid : String) :
    Db × Option HErr :=
  match markFirst db.ticket_notifications nid uid with
  | none => (db, some ⟨404, "Notification not found"⟩)
  | some l => ({ db with ticket_notifications := l }, none)

/-- The websocket Connection Registry (`ConnectionManager`): a dict
from user id to a set of channels, and the reverse dict from channel to
user id.  Channels are modelled as numeric handles; the dicts as
association lists with distinct keys; the sets as duplicate-free
lists. -/
structure ConnectionManager where
  active_connections : List (String × List Nat) := []
  connection_users : List (Nat × String) := []
deriving DecidableEq, Repr

/-- Dict lookup in the user-to-channels map. -/
def lookupAC (m : List (String × List Nat)) (u : String) : Option (List Nat) :=
  (m.find? (fun p => p.fst == u)).map Prod.snd

/-- Dict lookup in the channel-to-user map. -/
def lookupCU (m : List (Nat × String)) (ws : Nat) : Option String :=
  (m.find? (fun p => p.fst == ws)).map Prod.snd

/-- The connect-side update of `active_connections`: create the entry
if absent, then `set.add` the channel. -/
def acInsertChan (m : List (String × List Nat)) (u : String) (ws : Nat) :
    List (String × List Nat) :=
  match m with
  | [] => [(u, [ws])]
  | p :: rest =>
    if p.fst == u then
      (u, if ws ∈ p.snd then p.snd else p.snd ++ [ws]) :: rest
    else p :: acInsertChan rest u ws

/-- The connect-side update of `connection_users`: dict assignment. -/
def cuAssign (m : List (Nat × String)) (ws : Nat) (u : String) :
    List (Nat × String) :=
  match m with
  | [] => [(ws, u)]
  | p :: rest =>
    if p.fst == ws then (ws, u) :: rest else p :: cuAssign rest ws u

/-- Embedding of `ConnectionManager.connect` (the db liveness write is
outside the registry state). -/
def ConnectionManager.connect (cm : ConnectionManager) (ws : Nat)
    (u : String) : ConnectionManager :=
  { active_connections := acInsertChan cm.active_connections u ws,
    connection_users := cuAssign cm.connection_users ws u }

/-- Python `dict.pop(ws, None)`: the popped value and the remaining
dict. -/
def cuPop (m : List (Nat × String)) (ws : Nat) :
    Option String × List (Nat × String) :=
  match m with
  | [] => (none, [])
  | p :: rest =>
    if p.fst == ws then (some p.snd, rest)
    else
      let r := cuPop rest ws
      (r.fst, p :: r.snd)

/-- The disconnect-side update of `active_connections`: discard the
channel from the user entry and drop the entry if it became empty. -/
def acRemoveChan (m : List (String × List Nat)) (u : String) (ws : Nat) :
    List (String × List Nat) :=
  match m with
  | [] => []
  | p :: rest =>
    if p.fst == u then
      (if p.snd.erase ws = [] then rest else (u, p.snd.erase ws) :: rest)
    else p :: acRemoveChan rest u ws

/-- Embedding of `ConnectionManager.disconnect`: pop the channel from
the reverse map; when it named a (truthy) user present in
`active_connections`, discard the channel from that user and drop the
entry when its set becomes empty. -/
def ConnectionManager.disconnect (cm : ConnectionManager) (ws : Nat) :
    ConnectionManager :=
  let popped := cuPop cm.connection_users ws
  match popped.fst with
  | none => { cm with connection_users := popped.snd }
  | some u =>
    if u ≠ "" ∧ (lookupAC cm.active_connections u).isSome then
      { active_connections := acRemoveChan cm.active_connections u ws,
        connection_users := popped.snd }
    else { cm with connection_users := popped.snd }

/-- Embedding of `send_personal_message`: the payload itself does not
change the registry; every channel of the user observed dead during the
iteration (the `dead` input of the environment) is disconnected as a
side effect. -/
def ConnectionManager.sendDead (cm : ConnectionManager) (u : String)
    (dead : List Nat) : ConnectionManager :=
  match lookupAC cm.active_connections u with
  | none => cm
  | some conns =>
    (conns.filter (fun ws => ws ∈ dead)).foldl
      (fun m ws => m.disconnect ws) cm

/-- Registry operations, as invoked by the websocket endpoint: connect
always receives a freshly accepted channel. -/
inductive WsOp
  | connect (ws : Nat) (u : String)
  | disconnect (ws : Nat)
  | send (u : String) (dead : List Nat)
deriving DecidableEq, Repr

def runOp (cm : ConnectionManager) : WsOp → ConnectionManager
  | .connect ws u => cm.connect ws u
  | .disconnect ws => cm.disconnect ws
  | .send u dead => cm.sendDead u dead

def runOps (cm : ConnectionManager) : List WsOp → ConnectionManager
  | [] => cm
  | op :: rest => runOps (runOp cm op) rest

/-- Side condition under which an operation can occur in the source: a
connect handles a newly accepted websocket object (never one already in
the registry) for an authenticated user (non-empty id, since
`get_current_user` resolved a stored user document). -/
def okOp (cm : ConnectionManager) : WsOp → Prop
  | .connect ws u => lookupCU cm.connection_users ws = none ∧ u ≠ ""
  | .disconnect _ => True
  | .send _ _ => True

instance (cm : ConnectionManager) (op : WsOp) : Decidable (okOp cm op) := by
  cases op <;> (unfold okOp; infer_instance)

def okOps (cm : ConnectionManager) : List WsOp → Prop
  | [] => True
  | op :: rest => okOp cm op ∧ okOps (runOp cm op) rest

instance (cm : ConnectionManager) (l : List WsOp) : Decidable (okOps cm l) := by
  induction l generalizing cm with
  | nil => exact isTrue trivial
  | cons op rest ih =>
    unfold okOps
    have := ih (runOp cm op)
    infer_instance

/-- The registry invariant claimed by the spec: keys of both dicts are
distinct, channel sets are duplicate-free and never empty, and the two
maps are mutually consistent (a channel is in a user's set iff the
reverse map sends it to that user). -/
def RegistryInv (cm : ConnectionManager) : Prop :=
  (cm.active_connections.map Prod.fst).Nodup ∧
  (cm.connection_users.map Prod.fst).Nodup ∧
  (∀ p ∈ cm.active_connections, p.snd ≠ [] ∧ p.snd.Nodup) ∧
  (∀ p ∈ cm.active_connections, ∀ ws ∈ p.snd,
    lookupCU cm.connection_users ws = some p.fst) ∧
  (∀ q ∈ cm.connection_users,
    q.fst ∈ (lookupAC cm.active_connections q.snd).getD []) ∧
  (∀ p ∈ cm.active_connections, p.fst ≠ "")

instance (cm : ConnectionManager) : Decidable (RegistryInv cm) := by
  unfold RegistryInv; infer_instance

/-- The initial, empty registry. -/
def initRegistry : ConnectionManager := {}

/-! Concrete fixtures used by the witness theorems. -/

/-- A NOC-like department: ticket-edit capability, no user-edit
capability, enterprise-edit capability so the role resolves to noc. -/
def deptNoc : Department :=
  { id := "d-noc", name := "NOC", can_edit_tickets := true,
    can_create_tickets := true, can_edit_enterprises := true,
    department_type := some "all" }

/-- A NOC department scoped to SMS tickets only. -/
def deptNocSms : Department :=
  { id := "d-noc-sms", name := "NOC SMS", can_edit_tickets := true,
    can_create_tickets := true, can_edit_enterprises := true,
    department_type := some "sms" }

/-- An acting user attached to the NOC department. -/
def cuNoc : CurrentUser :=
  { id := "u1", username := "nina", department := some deptNoc }

/-- An acting user attached to the SMS-scoped NOC department. -/
def cuNocSms : CurrentUser :=
  { id := "u1", username := "nina", department := some deptNocSms }

/-- NOC members: the acting user, a peer with default preferences, and
a peer who opted out of noc_modification notifications. -/
def uNoc1 : User :=
  { id := "u1", username := "nina", department_id := some "d-noc" }

def uNoc2 : User :=
  { id := "u2", username := "omar", department_id := some "d-noc" }

def uNoc3 : User :=
  { id := "u3", username := "rita", department_id := some "d-noc",
    notify_on_noc_ticket_modification := some false,
    notify_on_am_action := some false }

/-- A store with the NOC department, its three members, and one
unassigned SMS ticket. -/
def dbC4 : Db :=
  { departments := [deptNoc], users := [uNoc1, uNoc2, uNoc3],
    sms_tickets :=
      [{ id := "t1", ticket_number := "TN1", customer := "ACME",
         status := "Unassigned" }] }

/-- The same store with the ticket assigned to the second member. -/
def dbC4a : Db :=
  { departments := [deptNoc], users := [uNoc1, uNoc2, uNoc3],
    sms_tickets :=
      [{ id := "t1", ticket_number := "TN1", customer := "ACME",
         status := "Assigned", assigned_to := some "u2" }] }

/-- A department whose members resolve to the am role. -/
def deptAm : Department :=
  { id := "d-am", name := "AM", can_create_tickets := true }

/-- An account manager user and the matching caller identity. -/
def uAm : User :=
  { id := "a1", username := "amy", department_id := some "d-am" }

def cuAm : CurrentUser :=
  { id := "a1", username := "amy", department := some deptAm,
    department_id := some "d-am", role := "am" }

/-- A NOC department scoped to Voice tickets only, and its user. -/
def deptNocVoice : Department :=
  { id := "d-noc-v", name := "NOC Voice", can_edit_tickets := true,
    can_create_tickets := true, can_edit_enterprises := true,
    department_type := some "voice" }

def cuNocVoice : CurrentUser :=
  { id := "u1", username := "nina", department := some deptNocVoice }

/-- A store with one voice ticket. -/
def dbC8 : Db :=
  { voice_tickets :=
      [{ id := "t1", ticket_number := "TNv", customer := "ACME",
         status := "Unassigned" }] }

/-- A store for the am_action fan-out: the NOC department with one
member notifying by default and one opted out, plus the AM. -/
def dbC7 : Db :=
  { departments := [deptNoc, deptAm], users := [uAm, uNoc1, uNoc3],
    sms_tickets :=
      [{ id := "t1", ticket_number := "TN1", customer := "ACME",
         status := "Assigned", assigned_to := some "u1" }] }

/-- The i-th member of an oversized NOC roster: a distinct non-empty id
and default (notifying) preferences. -/
def uNocBig (i : Nat) : User :=
  { id := String.mk (List.replicate (i + 1) 'w'),
    username := "w", department_id := some "d-noc" }

/-- A store whose NOC department has 101 members, every one of them
eligible for am_action notifications, plus the acting AM. -/
def dbC7big : Db :=
  { departments := [deptNoc, deptAm],
    users := uAm :: (List.range 101).map uNocBig,
    sms_tickets :=
      [{ id := "t1", ticket_number := "TN1", customer := "ACME",
         status := "Assigned", assigned_to := some "u1" }] }

/-- A store for the notification-failure half of C5: the NOC department
with two members notifying by default, plus the acting AM. -/
def tC5b : Ticket :=
  { id := "t1", ticket_number := "TN1", customer := "ACME",
    status := "Assigned", assigned_to := some "u1" }

def dbC5b : Db :=
  { departments := [deptNoc, deptAm], users := [uAm, uNoc1, uNoc2],
    sms_tickets := [tC5b] }

/-! Basic lemmas about the effect steps. -/

@[simp] theorem truthy_none_eq : truthy none = false := rfl

@[simp] theorem truthy_some_eq (s : String) : truthy (some s) = !(s == "") := rfl

@[simp] theorem seqStep_ok (c : Ctx) (k : Ctx → Step) :
    seqStep (c, none) k = k c := rfl

@[simp] theorem seqStep_err (c : Ctx) (e : HErr) (k : Ctx → Step) :
    seqStep (c, some e) k = (c, some e) := rfl

theorem seqStep_pure (s : Step) : seqStep s (fun c => (c, none)) = s := by
  rcases s with ⟨c, o⟩
  cases o <;> rfl

theorem insert_notification_noFaults (c : Ctx) (n : NotificationDoc) :
    insert_notification noFaults c n =
      (⟨{ c.db with
            ticket_notifications := c.db.ticket_notifications ++ [n] },
        c.nCount + 1⟩, none) := by
  simp [insert_notification, noFaults]

theorem create_audit_log_noFaults (c : Ctx) (a : AuditLog) :
    create_audit_log noFaults c a =
      (⟨{ c.db with audit_logs := c.db.audit_logs ++ [a] }, c.nCount⟩,
        none) := by
  simp [create_audit_log, noFaults]

theorem insertMany_noFaults (l : List NotificationDoc) (c : Ctx) :
    insertMany noFaults c l =
      (⟨{ c.db with
            ticket_notifications := c.db.ticket_notifications ++ l },
        c.nCount + l.length⟩, none) := by
  induction l generalizing c with
  | nil => simp [insertMany]
  | cons d rest ih =>
    simp only [insertMany, insert_notification_noFaults, seqStep_ok, ih]
    simp [List.append_assoc]
    omega

/-! Each notifier equals the sequential insertion of the document list
it computes from the store it reads. -/

theorem create_tmod_eq (f : Faults) (c : Ctx) (ex : Ticket)
    (tid tt cuId cuUsername : String) (now : Nat) :
    create_ticket_modification_notification f c tid ex.ticket_number tt
        (ex.assigned_to.getD "") cuId cuUsername now =
      insert_notification f c (tmodDocOf ex tid tt cuId cuUsername now) := rfl

theorem notify_ams_eq (f : Faults) (c : Ctx) (t : Ticket)
    (et tt cb : String) (now : Nat) :
    notify_ams_about_ticket f c t et tt cb now =
      insertMany f c (amDocsFor c.db.clients c.db.users t et tt cb now) := by
  unfold notify_ams_about_ticket amDocsFor findClient findUser
  repeat' split
  all_goals simp_all [insertMany, seqStep_pure]

theorem notify_am_action_eq (f : Faults) (c : Ctx) (t : Ticket)
    (text cb tt : String) (now : Nat) :
    notify_noc_about_am_action f c t text cb tt now =
      insertMany f c
        (amActionDocsFor c.db.departments c.db.users t text cb tt now) := by
  unfold notify_noc_about_am_action amActionDocsFor findDeptByName findUser
    nocUsers nocUsersL
  cases hd : List.find? (fun d => d.name == "NOC") c.db.departments with
  | none => simp [insertMany]
  | some nd =>
    simp only []
    by_cases hr :
      (List.filter (fun u => u.department_id == some nd.id) c.db.users).take 100 = []
    · simp [hr, insertMany]
    · simp [hr]

theorem notify_noc_mod_eq (f : Faults) (c : Ctx) (t : Ticket)
    (modified_by mbu : String) (changes : List Change) (tt : String)
    (now : Nat) :
    notify_noc_about_noc_modification f c t modified_by mbu changes tt now =
      insertMany f c
        (nocModDocsFor c.db.departments c.db.users t modified_by mbu
          changes tt now) := by
  unfold notify_noc_about_noc_modification nocModDocsFor findDeptByName
    nocUsers nocUsersL
  cases hd : List.find? (fun d => d.name == "NOC") c.db.departments with
  | none => simp [insertMany]
  | some nd =>
    simp only []
    by_cases hr :
      (List.filter (fun u => u.department_id == some nd.id) c.db.users).take 100 = []
    · simp [hr, insertMany]
    · simp [hr]

/-! Projection lemmas for `Db.setColl` and `Db.coll`. -/

@[simp] theorem setColl_departments (db : Db) (k : TicketKind) (l : List Ticket) :
    (db.setColl k l).departments = db.departments := by cases k <;> rfl

@[simp] theorem setColl_users (db : Db) (k : TicketKind) (l : List Ticket) :
    (db.setColl k l).users = db.users := by cases k <;> rfl

@[simp] theorem setColl_clients (db : Db) (k : TicketKind) (l : List Ticket) :
    (db.setColl k l).clients = db.clients := by cases k <;> rfl

@[simp] theorem setColl_notifications (db : Db) (k : TicketKind) (l : List Ticket) :
    (db.setColl k l).ticket_notifications = db.ticket_notifications := by
  cases k <;> rfl

@[simp] theorem setColl_audit (db : Db) (k : TicketKind) (l : List Ticket) :
    (db.setColl k l).audit_logs = db.audit_logs := by cases k <;> rfl

@[simp] theorem coll_setColl (db : Db) (k : TicketKind) (l : List Ticket) :
    (db.setColl k l).coll k = l := by cases k <;> rfl

/-- Characterization of a fault-free ticket update past the guards:
the found document is patched in place and the audit record and
notification fan-out of `updFinalDb` are appended. -/
theorem update_core_noFaults_spec
    (k : TicketKind) (db : Db) (tid : String) (p : TicketPatch)
    (cu : CurrentUser) (now : Nat) (ex : Ticket)
    (hfind : findById (db.coll k) tid = some ex)
    (hval : ¬ badAssignedStatus (effStatus ex p) (effAssigned ex p)) :
    update_ticket_core k noFaults db tid p cu now =
      (updFinalDb k db tid ex p cu now,
        .ok (applyPatch ex p (stampCond ex p) now)) := by
  unfold update_ticket_core
  simp only [hfind, hval, if_false, ite_false]
  by_cases hch : buildChanges ex p (stampCond ex p) now = []
  all_goals by_cases hsn : shouldNotify ex cu.id
  all_goals by_cases hnoc : modifierRole cu db = "noc"
  all_goals by_cases hst : effStatus ex p ≠ "" ∧ effStatus ex p ≠ ex.status
  all_goals cases hnt : statusNotifType (effStatus ex p)
  all_goals
    simp [hch, hsn, hnoc, hst, hnt, updFinalDb, updateNotifs,
      create_audit_log_noFaults, create_tmod_eq, insert_notification_noFaults,
      notify_noc_mod_eq, notify_ams_eq, insertMany_noFaults, seqStep_ok,
      List.append_assoc]
  all_goals (cases k <;> simp [Db.setColl])

/-- Characterization of a fault-free ticket create past the guards. -/
theorem create_core_noFaults_spec
    (k : TicketKind) (db : Db) (payload : TicketCreate) (cu : CurrentUser)
    (now : Nat) (newId : String) (cl : Client)
    (hval : ¬ badAssignedStatus payload.status payload.assigned_to)
    (hcl : findClient db payload.customer_id = some cl) :
    create_ticket_core k noFaults db payload cu now newId =
      (let t := createdTicket payload cl.name cu.id now newId
       let base := db.setColl k (db.coll k ++ [t])
       ({ base with
          audit_logs := base.audit_logs ++ [createAuditRec k cu newId t now],
          ticket_notifications := base.ticket_notifications ++
            createNotifs k db t cu.id now },
        Except.ok t)) := by
  unfold create_ticket_core
  simp only [hval, hcl, if_false, ite_false]
  by_cases ha : truthy (createdTicket payload cl.name cu.id now newId).assigned_to
  all_goals
    simp [ha, createNotifs, create_audit_log_noFaults, notify_ams_eq,
      insertMany_noFaults, seqStep_ok, List.append_assoc]

/-- Characterization of a fault-free action append when the acting user
document exists and the ticket is found. -/
theorem add_action_noFaults_spec
    (k : TicketKind) (db : Db) (tid text : String) (cu : CurrentUser)
    (now : Nat) (aid : String) (u : User) (t : Ticket)
    (hu : findUser db cu.id = some u)
    (ht : findById (db.coll k) tid = some t) :
    add_ticket_action k noFaults db tid text cu now aid =
      (let act : TicketAction := ⟨aid, text, cu.id, u.username, now⟩
       let t2 := { t with actions := t.actions ++ [act], updated_at := now }
       let base := db.setColl k (setTicket (db.coll k) tid t2)
       ({ base with
          audit_logs := base.audit_logs ++ [actAuditRec k cu u.username aid t now],
          ticket_notifications := base.ticket_notifications ++
            (if get_user_role_from_department
                (match u.department_id with
                 | some did => findDept db did
                 | none => none) = "am" then
              amActionDocsFor db.departments db.users t text cu.id k.str now
             else []) },
        Except.ok act)) := by
  unfold add_ticket_action
  simp only [hu, ht]
  by_cases hr : get_user_role_from_department
      (match u.department_id with
       | some did => findDept db did
       | none => none) = "am"
  all_goals simp only [findDept] at hr
  all_goals
    simp [hr, findDept, create_audit_log_noFaults, notify_am_action_eq,
      insertMany_noFaults, seqStep_ok, List.append_assoc]

/-- With the scope and permission guards satisfied, `update_sms_ticket`
is the shared core. -/
theorem update_sms_guard_ok (f : Faults) (db : Db) (tid : String)
    (p : TicketPatch) (cu : CurrentUser) (now : Nat) (d : Department)
    (hscope : get_user_ticket_type (get_user_department cu db) = "all" ∨
      get_user_ticket_type (get_user_department cu db) = "sms")
    (hd : get_user_department cu db = some d)
    (hce : d.can_edit_tickets = true) :
    update_sms_ticket f db tid p cu now =
      update_ticket_core .sms f db tid p cu now := by
  rcases hscope with h | h <;>
    simp [update_sms_ticket, hd, hce, h, hd ▸ h]

/-- `update_voice_ticket` rejects exactly the am-resolved callers and
otherwise runs the shared core. -/
theorem update_voice_guard (f : Faults) (db : Db) (tid : String)
    (p : TicketPatch) (cu : CurrentUser) (now : Nat) :
    update_voice_ticket f db tid p cu now =
      (if modifierRole cu db = "am" then
        (db, .error ⟨403, "Account Managers cannot modify tickets"⟩)
       else update_ticket_core .voice f db tid p cu now) := by
  unfold update_voice_ticket modifierRole
  cases h : get_user_department cu db <;>
    simp [h, get_user_role_from_department]

/-! Claim C2. -/

/-- C2: role resolution is a pure function of the four capability
booleans, returning exactly one of admin, noc, am, unknown in the fixed
priority written by the spec (`resolveRoleSpec`); a missing department
resolves to the unknown role and to the "all" ticket scope. -/
theorem C2_resolveRole_priority :
    (∀ dept : Option Department,
      get_user_role_from_department dept = resolveRoleSpec dept ∧
      (get_user_role_from_department dept = "admin" ∨
       get_user_role_from_department dept = "noc" ∨
       get_user_role_from_department dept = "am" ∨
       get_user_role_from_department dept = "unknown")) ∧
    (∀ d1 d2 : Department,
      d1.can_edit_users = d2.can_edit_users →
      d1.can_create_tickets = d2.can_create_tickets →
      d1.can_edit_enterprises = d2.can_edit_enterprises →
      d1.can_edit_tickets = d2.can_edit_tickets →
      get_user_role_from_department (some d1) =
        get_user_role_from_department (some d2)) ∧
    get_user_role_from_department none = "unknown" ∧
    get_user_ticket_type none = "all" := by
  refine ⟨?_, ?_, rfl, rfl⟩
  · intro dept
    cases dept with
    | none => exact ⟨rfl, by simp [get_user_role_from_department]⟩
    | some d =>
      rcases d with ⟨did, dname, ceu, cct, cee, cet, dt⟩
      cases ceu <;> cases cct <;> cases cee <;> cases cet <;>
        simp [get_user_role_from_department, resolveRoleSpec]
  · intro d1 d2 h1 h2 h3 h4
    simp only [get_user_role_from_department, h1, h2, h3, h4]

/-- Witness for C2 at concrete departments: the priority rule evaluated
on an overlapping capability set, and purity across unrelated fields. -/
theorem C2_resolveRole_priority_witness :
    (get_user_role_from_department
        (some { can_edit_users := true, can_create_tickets := true,
                can_edit_tickets := true }) =
      resolveRoleSpec
        (some { can_edit_users := true, can_create_tickets := true,
                can_edit_tickets := true })) ∧
    get_user_role_from_department
        (some { name := "A", can_edit_tickets := true }) =
      get_user_role_from_department
        (some { name := "B", can_edit_tickets := true }) :=
  ⟨(C2_resolveRole_priority.1 _).1,
   C2_resolveRole_priority.2.1 _ _ rfl rfl rfl rfl⟩

/-! Claim C9. -/

theorem markFirst_sound {nid uid : String} :
    ∀ {l l' : List NotificationDoc}, markFirst l nid uid = some l' →
      ∃ l1 n l2, l = l1 ++ n :: l2 ∧ n.id = nid ∧ n.assigned_to = uid ∧
        l' = l1 ++ setRead n :: l2 := by
  intro l
  induction l with
  | nil => intro l' h; exact Option.noConfusion h
  | cons m rest ih =>
    intro l' h
    unfold markFirst at h
    by_cases hm : m.id = nid ∧ m.assigned_to = uid
    · rw [if_pos hm] at h
      refine ⟨[], m, rest, by simp, hm.1, hm.2, ?_⟩
      simpa [setRead] using (Option.some.inj h).symm
    · rw [if_neg hm] at h
      cases hr : markFirst rest nid uid with
      | none => rw [hr] at h; simp at h
      | some rest2 =>
        rw [hr] at h
        have h2 : m :: rest2 = l' := by simpa using h
        obtain ⟨l1, n, l2, hdec, hid, hat, hres⟩ := ih hr
        refine ⟨m :: l1, n, l2, by simp [hdec], hid, hat, ?_⟩
        rw [← h2, hres]
        simp

theorem markFirst_idem {nid uid : String} :
    ∀ {l l' : List NotificationDoc}, markFirst l nid uid = some l' →
      markFirst l' nid uid = some l' := by
  intro l
  induction l with
  | nil => intro l' h; exact Option.noConfusion h
  | cons m rest ih =>
    intro l' h
    unfold markFirst at h
    by_cases hm : m.id = nid ∧ m.assigned_to = uid
    · rw [if_pos hm] at h
      rw [← Option.some.inj h]
      unfold markFirst
      rw [if_pos (by simpa [setRead] using hm)]
    · rw [if_neg hm] at h
      cases hr : markFirst rest nid uid with
      | none => rw [hr] at h; simp at h
      | some rest2 =>
        rw [hr] at h
        have h2 : m :: rest2 = l' := by simpa using h
        rw [← h2]
        unfold markFirst
        rw [if_neg hm, ih hr]
        rfl

/-- C9: `markNotificationRead` is idempotent.  When no notification
matches the id for that user the call returns NotFoundError with the
store unchanged.  When one matches, the store differs only in that the
first matching document gets `read := true` (`setRead` changes no other
field), the call succeeds, and calling again succeeds and leaves the
store exactly as after the first call (so `read` is true after both
calls). -/
theorem C9_mark_read_idempotent :
    ∀ (db : Db) (nid uid : String),
      (markFirst db.ticket_notifications nid uid = none →
        mark_notification_as_read db nid uid =
          (db, some ⟨404, "Notification not found"⟩)) ∧
      (∀ l', markFirst db.ticket_notifications nid uid = some l' →
        (∃ l1 n l2, db.ticket_notifications = l1 ++ n :: l2 ∧
          n.id = nid ∧ n.assigned_to = uid ∧ l' = l1 ++ setRead n :: l2) ∧
        mark_notification_as_read db nid uid =
          ({ db with ticket_notifications := l' }, none) ∧
        mark_notification_as_read { db with ticket_notifications := l' } nid uid =
          ({ db with ticket_notifications := l' }, none)) := by
  intro db nid uid
  constructor
  · intro h
    unfold mark_notification_as_read
    rw [h]
  · intro l' h
    obtain ⟨l1, n, l2, hdec, hid, hat, hres⟩ := markFirst_sound h
    refine ⟨⟨l1, n, l2, hdec, hid, hat, hres⟩, ?_, ?_⟩
    · unfold mark_notification_as_read
      rw [h]
    · unfold mark_notification_as_read
      have h2 : markFirst l' nid uid = some l' := markFirst_idem h
      simp only [h2]

/-- Witness for C9 at a one-notification store. -/
theorem C9_mark_read_idempotent_witness :
    mark_notification_as_read
        { ticket_notifications := [{ id := "n1", assigned_to := "u1" }] }
        "n1" "u1" =
      ({ ticket_notifications :=
          [{ id := "n1", assigned_to := "u1", read := true }] }, none) ∧
    mark_notification_as_read
        { ticket_notifications :=
            [{ id := "n1", assigned_to := "u1", read := true }] }
        "n1" "u1" =
      ({ ticket_notifications :=
          [{ id := "n1", assigned_to := "u1", read := true }] }, none) :=
  ⟨((C9_mark_read_idempotent
      { ticket_notifications := [{ id := "n1", assigned_to := "u1" }] }
      "n1" "u1").2 _ (by decide)).2.1,
   ((C9_mark_read_idempotent
      { ticket_notifications := [{ id := "n1", assigned_to := "u1" }] }
      "n1" "u1").2 _ (by decide)).2.2⟩

/-! Claim C1. -/

/-- C1: every ticket update (SMS or Voice) whose effective status is
Assigned with a null effective assignee — unspecified patch fields
falling back to the existing document — is rejected with the 400
ValidationError and the whole store is returned unchanged (so no
notification and no audit record is written); likewise for creates
with status Assigned and no assignee.  The guard hypotheses put the
caller past the authorization checks of each handler. -/
theorem C1_assigned_requires_assignee :
    (∀ (f : Faults) (db : Db) (tid : String) (p : TicketPatch)
        (cu : CurrentUser) (now : Nat) (d : Department) (ex : Ticket),
      (get_user_ticket_type (get_user_department cu db) = "all" ∨
        get_user_ticket_type (get_user_department cu db) = "sms") →
      get_user_department cu db = some d → d.can_edit_tickets = true →
      findById db.sms_tickets tid = some ex →
      effStatus ex p = "Assigned" → effAssigned ex p = none →
      update_sms_ticket f db tid p cu now =
        (db, .error ⟨400, "Status cannot be Assigned unless a NOC member is assigned"⟩)) ∧
    (∀ (f : Faults) (db : Db) (tid : String) (p : TicketPatch)
        (cu : CurrentUser) (now : Nat) (ex : Ticket),
      modifierRole cu db ≠ "am" →
      findById db.voice_tickets tid = some ex →
      effStatus ex p = "Assigned" → effAssigned ex p = none →
      update_voice_ticket f db tid p cu now =
        (db, .error ⟨400, "Status cannot be Assigned unless a NOC member is assigned"⟩)) ∧
    (∀ (f : Faults) (db : Db) (payload : TicketCreate) (cu : CurrentUser)
        (now : Nat) (newId : String) (d : Department),
      (get_user_ticket_type (get_user_department cu db) = "all" ∨
        get_user_ticket_type (get_user_department cu db) = "sms") →
      get_user_department cu db = some d → d.can_create_tickets = true →
      payload.status = "Assigned" → payload.assigned_to = none →
      create_sms_ticket f db payload cu now newId =
        (db, .error ⟨400, "Status cannot be Assigned unless a NOC member is assigned"⟩)) ∧
    (∀ (f : Faults) (db : Db) (payload : TicketCreate) (cu : CurrentUser)
        (now : Nat) (newId : String),
      cu.role ≠ "am" →
      payload.status = "Assigned" → payload.assigned_to = none →
      create_voice_ticket f db payload cu now newId =
        (db, .error ⟨400, "Status cannot be Assigned unless a NOC member is assigned"⟩)) := by
  refine ⟨?_, ?_, ?_, ?_⟩
  · intro f db tid p cu now d ex hscope hd hce hfind hs ha
    rw [update_sms_guard_ok f db tid p cu now d hscope hd hce]
    unfold update_ticket_core
    have hfind2 : findById (db.coll .sms) tid = some ex := hfind
    simp only [hfind2]
    rw [if_pos ⟨hs, by rw [ha]; rfl⟩]
  · intro f db tid p cu now ex hrole hfind hs ha
    rw [update_voice_guard, if_neg hrole]
    unfold update_ticket_core
    have hfind2 : findById (db.coll .voice) tid = some ex := hfind
    simp only [hfind2]
    rw [if_pos ⟨hs, by rw [ha]; rfl⟩]
  · intro f db payload cu now newId d hscope hd hcc hs ha
    have hg : create_sms_ticket f db payload cu now newId =
        create_ticket_core .sms f db payload cu now newId := by
      rcases hscope with h | h <;>
        simp [create_sms_ticket, hd, hcc, h, hd ▸ h]
    rw [hg]
    unfold create_ticket_core
    rw [if_pos ⟨hs, by rw [ha]; rfl⟩]
  · intro f db payload cu now newId hrole hs ha
    unfold create_voice_ticket
    rw [if_neg hrole]
    unfold create_ticket_core
    rw [if_pos ⟨hs, by rw [ha]; rfl⟩]

/-- Witness for C1: a NOC caller patching status to Assigned on an
unassigned ticket, and creates with status Assigned and no assignee,
all rejected with the store unchanged. -/
theorem C1_assigned_requires_assignee_witness :
    update_sms_ticket noFaults
        { sms_tickets := [{ id := "t1", status := "Unassigned" }] } "t1"
        { status := some "Assigned" } cuNoc 5 =
      ({ sms_tickets := [{ id := "t1", status := "Unassigned" }] },
        .error ⟨400, "Status cannot be Assigned unless a NOC member is assigned"⟩) ∧
    update_voice_ticket noFaults
        { voice_tickets := [{ id := "t1", status := "Unassigned" }] } "t1"
        { status := some "Assigned" } cuNoc 5 =
      ({ voice_tickets := [{ id := "t1", status := "Unassigned" }] },
        .error ⟨400, "Status cannot be Assigned unless a NOC member is assigned"⟩) ∧
    create_sms_ticket noFaults {} { status := "Assigned", customer_id := "c1" }
        cuNoc 5 "t9" =
      ({}, .error ⟨400, "Status cannot be Assigned unless a NOC member is assigned"⟩) ∧
    create_voice_ticket noFaults {} { status := "Assigned", customer_id := "c1" }
        { id := "u1", username := "nina", role := "noc" } 5 "t9" =
      ({}, .error ⟨400, "Status cannot be Assigned unless a NOC member is assigned"⟩) :=
  ⟨C1_assigned_requires_assignee.1 noFaults _ "t1" _ cuNoc 5 deptNoc
      { id := "t1", status := "Unassigned" }
      (Or.inl (by decide)) (by decide) (by decide) (by decide) (by decide)
      (by decide),
   C1_assigned_requires_assignee.2.1 noFaults _ "t1" _ cuNoc 5
      { id := "t1", status := "Unassigned" }
      (by decide) (by decide) (by decide) (by decide),
   C1_assigned_requires_assignee.2.2.1 noFaults _ _ cuNoc 5 "t9" deptNoc
      (Or.inl (by decide)) (by decide) (by decide) (by decide) (by decide),
   C1_assigned_requires_assignee.2.2.2 noFaults _ _ _ 5 "t9"
      (by decide) (by decide) (by decide)⟩

/-! Claim C6. -/

@[simp] theorem applyPatch_assigned_to (t : Ticket) (p : TicketPatch)
    (s : Bool) (n : Nat) :
    (applyPatch t p s n).assigned_to = effAssigned t p := rfl

@[simp] theorem applyPatch_status (t : Ticket) (p : TicketPatch)
    (s : Bool) (n : Nat) :
    (applyPatch t p s n).status = effStatus t p := rfl

@[simp] theorem applyPatch_assigned_at (t : Ticket) (p : TicketPatch)
    (s : Bool) (n : Nat) :
    (applyPatch t p s n).assigned_at = if s then some n else t.assigned_at := rfl

@[simp] theorem applyPatch_id (t : Ticket) (p : TicketPatch)
    (s : Bool) (n : Nat) :
    (applyPatch t p s n).id = t.id := rfl

@[simp] theorem coll_update_an (d : Db) (k : TicketKind) (au : List AuditLog)
    (tn : List NotificationDoc) :
    Db.coll { d with audit_logs := au, ticket_notifications := tn } k =
      d.coll k := by
  cases k <;> rfl

theorem updFinalDb_coll (k : TicketKind) (db : Db) (tid : String)
    (ex : Ticket) (p : TicketPatch) (cu : CurrentUser) (now : Nat) :
    (updFinalDb k db tid ex p cu now).coll k =
      setTicket (db.coll k) tid (applyPatch ex p (stampCond ex p) now) := by
  cases k <;> simp [updFinalDb, Db.setColl, Db.coll]

theorem findById_some_id {l : List Ticket} {tid : String} {ex : Ticket}
    (h : findById l tid = some ex) : ex.id = tid := by
  unfold findById at h
  have := List.find?_some h
  simpa using this

theorem findById_setTicket {l : List Ticket} {tid : String} {ex : Ticket}
    (h : findById l tid = some ex) (nt : Ticket) (hid : nt.id = tid) :
    findById (setTicket l tid nt) tid = some nt := by
  induction l with
  | nil => exact Option.noConfusion h
  | cons t rest ih =>
    unfold setTicket
    by_cases ht : t.id = tid
    · rw [if_pos (show (t.id == tid) = true by simpa using ht)]
      unfold findById
      rw [List.find?_cons_of_pos _ (by simpa using hid)]
    · rw [if_neg (show ¬((t.id == tid) = true) by simpa using ht)]
      unfold findById at h ⊢
      rw [List.find?_cons_of_neg _ (by simpa using ht)] at h ⊢
      exact ih h

/-- With validation passed, the stamping condition of the source is
exactly the condition worded by the spec. -/
theorem stampCond_iff (ex : Ticket) (p : TicketPatch)
    (hval : ¬ badAssignedStatus (effStatus ex p) (effAssigned ex p)) :
    stampCond ex p = true ↔
      (effAssigned ex p ≠ none ∧ effAssigned ex p ≠ ex.assigned_to ∧
        effStatus ex p = "Assigned") := by
  unfold stampCond
  unfold badAssignedStatus at hval
  simp only [decide_eq_true_eq]
  constructor
  · rintro ⟨h1, h2, h3⟩
    refine ⟨?_, ?_, h2⟩
    · intro hn
      rw [hn] at h1
      simp at h1
    · rcases h3 with h3 | h3
      · intro heq
        rw [heq] at h1
        rw [h1] at h3
        exact Bool.noConfusion h3
      · exact fun heq => h3 heq.symm
  · rintro ⟨h1, h2, h3⟩
    have ht : truthy (effAssigned ex p) = true := by
      by_contra hh
      exact hval ⟨h3, by simpa using hh⟩
    exact ⟨ht, h3, Or.inr (fun heq => h2 heq.symm)⟩

/-- C6: a fault-free update stamps `assigned_at := now` exactly when
the effective assignee is non-null, differs from the prior document,
and the effective status is Assigned; otherwise the stored
`assigned_at` is kept.  Repeating the identical update (same
`assigned_to` patch, status still Assigned) leaves `assigned_at`
unchanged, and a validation-rejected update writes nothing at all. -/
theorem C6_assigned_at_stamp :
    ∀ (k : TicketKind) (db : Db) (tid : String) (p : TicketPatch)
      (cu : CurrentUser) (now : Nat) (ex : Ticket),
      findById (db.coll k) tid = some ex →
      (badAssignedStatus (effStatus ex p) (effAssigned ex p) →
        update_ticket_core k noFaults db tid p cu now =
          (db, .error ⟨400, "Status cannot be Assigned unless a NOC member is assigned"⟩)) ∧
      (¬ badAssignedStatus (effStatus ex p) (effAssigned ex p) →
        ∃ r, update_ticket_core k noFaults db tid p cu now =
            (updFinalDb k db tid ex p cu now, .ok r) ∧
          r.assigned_at =
            (if effAssigned ex p ≠ none ∧ effAssigned ex p ≠ ex.assigned_to ∧
                effStatus ex p = "Assigned"
             then some now else ex.assigned_at) ∧
          (∀ (cu2 : CurrentUser) (now2 : Nat) (v : String),
            p.assigned_to = some v → effStatus ex p = "Assigned" →
            ∃ db2 r2, update_ticket_core k noFaults
                (updFinalDb k db tid ex p cu now) tid p cu2 now2 =
                  (db2, .ok r2) ∧
              r2.assigned_at = r.assigned_at)) := by
  intro k db tid p cu now ex hfind
  constructor
  · intro hbad
    unfold update_ticket_core
    simp only [hfind]
    rw [if_pos hbad]
  · intro hval
    refine ⟨applyPatch ex p (stampCond ex p) now,
      update_core_noFaults_spec k db tid p cu now ex hfind hval, ?_, ?_⟩
    · rw [applyPatch_assigned_at]
      by_cases hs : stampCond ex p = true
      · rw [if_pos hs, if_pos ((stampCond_iff ex p hval).mp hs)]
      · rw [if_neg (by simpa using hs),
          if_neg (fun hc => hs ((stampCond_iff ex p hval).mpr hc))]
    · intro cu2 now2 v hpv hps
      -- the first update stored r with assignee v and status Assigned
      set r := applyPatch ex p (stampCond ex p) now with hr
      have hvne : v ≠ "" := by
        intro hv
        exact hval ⟨hps, by simp [effAssigned, hpv, hv]⟩
      have hfind2 :
          findById ((updFinalDb k db tid ex p cu now).coll k) tid = some r := by
        rw [updFinalDb_coll]
        exact findById_setTicket hfind _ (by simp [findById_some_id hfind])
      have hra : r.assigned_to = some v := by
        rw [hr, applyPatch_assigned_to]
        simp [effAssigned, hpv]
      have hrs : r.status = "Assigned" := by
        rw [hr, applyPatch_status, hps]
      have heff2a : effAssigned r p = some v := by
        simp [effAssigned, hpv]
      have heff2s : effStatus r p = "Assigned" := by
        unfold effStatus at hps ⊢
        cases hq : p.status with
        | none => rw [hq] at hps; simp [hq, hrs]
        | some s => rw [hq] at hps; simpa [hq] using hps
      have hval2 : ¬ badAssignedStatus (effStatus r p) (effAssigned r p) := by
        rintro ⟨_, hb⟩
        rw [heff2a] at hb
        simp [hvne] at hb
      have hstamp2 : stampCond r p = false := by
        rw [Bool.eq_false_iff]
        intro hs
        rcases ((stampCond_iff r p hval2).mp hs) with ⟨_, hdiff, _⟩
        rw [heff2a, hra] at hdiff
        exact hdiff rfl
      refine ⟨_, applyPatch r p (stampCond r p) now2,
        update_core_noFaults_spec k _ tid p cu2 now2 r hfind2 hval2, ?_⟩
      rw [applyPatch_assigned_at, hstamp2]
      simp

/-- Witness for C6: assigning an unassigned ticket stamps
`assigned_at` to the update time. -/
theorem C6_assigned_at_stamp_witness :
    ∃ r, update_ticket_core .sms noFaults
        { sms_tickets := [{ id := "t1", status := "Unassigned" }] } "t1"
        { assigned_to := some "u2", status := some "Assigned" } cuNoc 7 =
      (updFinalDb .sms
        { sms_tickets := [{ id := "t1", status := "Unassigned" }] } "t1"
        { id := "t1", status := "Unassigned" }
        { assigned_to := some "u2", status := some "Assigned" } cuNoc 7,
        .ok r) ∧
      r.assigned_at = some 7 := by
  obtain ⟨r, h1, h2, _⟩ :=
    (C6_assigned_at_stamp .sms
      { sms_tickets := [{ id := "t1", status := "Unassigned" }] } "t1"
      { assigned_to := some "u2", status := some "Assigned" } cuNoc 7
      { id := "t1", status := "Unassigned" } (by decide)).2 (by decide)
  exact ⟨r, h1, by rw [h2]; decide⟩

/-! Claim C3. -/

theorem updFinalDb_notifs (k : TicketKind) (db : Db) (tid : String)
    (ex : Ticket) (p : TicketPatch) (cu : CurrentUser) (now : Nat) :
    (updFinalDb k db tid ex p cu now).ticket_notifications =
      db.ticket_notifications ++ updateNotifs k db tid ex p cu now := by
  cases k <;> simp [updFinalDb, Db.setColl]

theorem updFinalDb_audit (k : TicketKind) (db : Db) (tid : String)
    (ex : Ticket) (p : TicketPatch) (cu : CurrentUser) (now : Nat) :
    (updFinalDb k db tid ex p cu now).audit_logs =
      db.audit_logs ++
        (if buildChanges ex p (stampCond ex p) now ≠ [] then
          [updateAuditRec k cu tid (applyPatch ex p (stampCond ex p) now) now]
         else []) := by
  cases k <;> simp [updFinalDb, Db.setColl]

theorem amDocsFor_event (cls : List Client) (us : List User) (t : Ticket)
    (et tt cb : String) (now : Nat) :
    ∀ n ∈ amDocsFor cls us t et tt cb now, n.event_type = et := by
  unfold amDocsFor
  repeat' split
  all_goals simp

theorem nocModDocsFor_event (deps : List Department) (us : List User)
    (t : Ticket) (mb mbu : String) (ch : List Change) (tt : String)
    (now : Nat) :
    ∀ n ∈ nocModDocsFor deps us t mb mbu ch tt now,
      n.event_type = "noc_modification" := by
  unfold nocModDocsFor
  split
  · simp
  · intro n hn
    rw [List.mem_map] at hn
    obtain ⟨u, _, hu⟩ := hn
    rw [← hu]
    rfl

theorem statusNotifType_ne_tmod {s nt : String}
    (h : statusNotifType s = some nt) : nt ≠ "ticket_modification" := by
  unfold statusNotifType at h
  split at h <;>
    first
      | exact Option.noConfusion h
      | (injection h with h2; exact h2 ▸ (by decide))

theorem filter_not_event (l : List NotificationDoc) (et : String)
    (h : ∀ n ∈ l, n.event_type ≠ et) :
    l.filter (fun n => n.event_type == et) = [] :=
  List.filter_eq_nil_iff.mpr (fun a ha => by simp [h a ha])

/-- Under the persisted-document invariant (status Assigned implies a
truthy assignee), the `should_notify` test of the source is exactly the
notion of the spec. -/
theorem shouldNotify_iff (ex : Ticket) (cuId : String)
    (hInv : ex.status = "Assigned" → ex.assigned_to ≠ some "") :
    shouldNotify ex cuId ↔
      (ex.assigned_to ≠ none ∧ ex.status = "Assigned" ∧
        ex.assigned_to ≠ some cuId) := by
  unfold shouldNotify
  constructor
  · rintro ⟨h1, h2, h3⟩
    refine ⟨?_, h2, h3⟩
    intro hn
    rw [hn] at h1
    exact Bool.noConfusion h1
  · rintro ⟨h1, h2, h3⟩
    refine ⟨?_, h2, h3⟩
    cases hx : ex.assigned_to with
    | none => exact absurd hx h1
    | some s =>
      have hne : some s ≠ some "" := hx ▸ hInv h2
      simp only [truthy_some_eq, Bool.not_eq_true', beq_iff_eq]
      simp only [ne_eq, Option.some.injEq] at hne
      simpa using hne

/-- C3: a fault-free update persists exactly one `ticket_modification`
notification if and only if the prior document has a non-null assignee,
its status is Assigned, and the acting user is not that assignee; its
recipient is that assignee; no preference flag occurs in the condition
(the store, and hence every preference flag of the recipient, is
universally quantified).  The last conjunct shows the hypothesis that a
persisted Assigned document has a truthy assignee is maintained by
updates themselves. -/
theorem C3_ticket_modification_iff :
    ∀ (k : TicketKind) (db : Db) (tid : String) (p : TicketPatch)
      (cu : CurrentUser) (now : Nat) (ex : Ticket),
      findById (db.coll k) tid = some ex →
      ¬ badAssignedStatus (effStatus ex p) (effAssigned ex p) →
      (ex.status = "Assigned" → ex.assigned_to ≠ some "") →
      ∃ dbOut r, update_ticket_core k noFaults db tid p cu now =
          (dbOut, .ok r) ∧
        dbOut.ticket_notifications.filter
            (fun n => n.event_type == "ticket_modification") =
          db.ticket_notifications.filter
            (fun n => n.event_type == "ticket_modification") ++
          (if ex.assigned_to ≠ none ∧ ex.status = "Assigned" ∧
              ex.assigned_to ≠ some cu.id
           then [tmodDocOf ex tid k.str cu.id cu.username now] else []) ∧
        (tmodDocOf ex tid k.str cu.id cu.username now).assigned_to =
          ex.assigned_to.getD "" ∧
        (r.status = "Assigned" → truthy r.assigned_to = true) := by
  intro k db tid p cu now ex hfind hval hInv
  refine ⟨_, _, update_core_noFaults_spec k db tid p cu now ex hfind hval,
    ?_, rfl, ?_⟩
  · rw [updFinalDb_notifs, List.filter_append]
    congr 1
    unfold updateNotifs
    rw [List.filter_append, List.filter_append]
    have hB : (if shouldNotify ex cu.id ∧ modifierRole cu db = "noc" ∧
          buildChanges ex p (stampCond ex p) now ≠ [] then
          nocModDocsFor db.departments db.users ex cu.id cu.username
            (buildChanges ex p (stampCond ex p) now) k.str now
        else []).filter (fun n => n.event_type == "ticket_modification") = [] := by
      split
      · exact filter_not_event _ _ (fun n hn => by
          rw [nocModDocsFor_event _ _ _ _ _ _ _ _ n hn]; decide)
      · rfl
    have hC : (if effStatus ex p ≠ "" ∧ effStatus ex p ≠ ex.status then
          match statusNotifType (effStatus ex p) with
          | some nt => amDocsFor db.clients db.users
              (applyPatch ex p (stampCond ex p) now) nt k.str cu.id now
          | none => []
        else []).filter (fun n => n.event_type == "ticket_modification") = [] := by
      split
      · cases hnt : statusNotifType (effStatus ex p) with
        | none => rfl
        | some nt =>
          exact filter_not_event _ _ (fun n hn => by
            rw [amDocsFor_event _ _ _ _ _ _ _ n hn]
            exact statusNotifType_ne_tmod hnt)
      · rfl
    rw [hB, hC, List.append_nil, List.append_nil]
    by_cases hsn : shouldNotify ex cu.id
    · rw [if_pos hsn, if_pos ((shouldNotify_iff ex cu.id hInv).mp hsn)]
      simp [tmodDocOf]
    · rw [if_neg hsn,
        if_neg (fun hc => hsn ((shouldNotify_iff ex cu.id hInv).mpr hc))]
      rfl
  · intro hs
    rw [applyPatch_status] at hs
    rw [applyPatch_assigned_to]
    by_contra hh
    exact hval ⟨hs, by simpa using hh⟩

/-- Witness for C3: a NOC user edits a ticket assigned to someone else;
exactly one ticket_modification notification for that assignee. -/
theorem C3_ticket_modification_iff_witness :
    ∃ dbOut r, update_ticket_core .sms noFaults
        { sms_tickets :=
            [{ id := "t1", status := "Assigned", assigned_to := some "u2" }] }
        "t1" { priority := some "High" } cuNoc 9 = (dbOut, .ok r) ∧
      dbOut.ticket_notifications.filter
          (fun n => n.event_type == "ticket_modification") =
        [tmodDocOf { id := "t1", status := "Assigned", assigned_to := some "u2" }
          "t1" "sms" "u1" "nina" 9] := by
  obtain ⟨dbOut, r, h1, h2, _, _⟩ :=
    C3_ticket_modification_iff .sms
      { sms_tickets :=
          [{ id := "t1", status := "Assigned", assigned_to := some "u2" }] }
      "t1" { priority := some "High" } cuNoc 9
      { id := "t1", status := "Assigned", assigned_to := some "u2" }
      (by decide) (by decide) (by decide)
  refine ⟨dbOut, r, h1, ?_⟩
  rw [h2, if_pos (by decide)]
  rfl

/-! Claim C4. -/

theorem statusNotifType_ne_nocmod {s nt : String}
    (h : statusNotifType s = some nt) : nt ≠ "noc_modification" := by
  unfold statusNotifType at h
  split at h <;>
    first
      | exact Option.noConfusion h
      | (injection h with h2; exact h2 ▸ (by decide))

theorem filter_event_self (l : List NotificationDoc) (et : String)
    (h : ∀ n ∈ l, n.event_type = et) :
    l.filter (fun n => n.event_type == et) = l :=
  List.filter_eq_self.mpr (fun a ha => by simp [h a ha])

/-- Counterexample to C4 as stated: a NOC member (`u1`, role
resolves to noc) updates an UNASSIGNED ticket changing its priority; an
eligible peer (`u2`, preference absent hence defaulting to notify)
exists in the NOC department; yet the call persists no
`noc_modification` notification at all, because the source only runs
the NOC fan-out inside the peer-assignee (`should_notify`) branch. -/
theorem C4_noc_modification_counterexample :
    modifierRole cuNoc dbC4 = "noc" ∧
    buildChanges
        { id := "t1", ticket_number := "TN1", customer := "ACME",
          status := "Unassigned" }
        { priority := some "High" }
        (stampCond
          { id := "t1", ticket_number := "TN1", customer := "ACME",
            status := "Unassigned" }
          { priority := some "High" }) 9 ≠ [] ∧
    (∃ nd, findDeptByName dbC4 "NOC" = some nd ∧
      ∃ u ∈ nocUsers dbC4 nd.id, u.id ≠ cuNoc.id ∧
        u.notify_on_noc_ticket_modification ≠ some false) ∧
    (update_sms_ticket noFaults dbC4 "t1" { priority := some "High" }
        cuNoc 9).1.ticket_notifications.filter
      (fun n => n.event_type == "noc_modification") = [] := by
  refine ⟨by decide, by decide, ⟨deptNoc, by decide, uNoc2, by decide, by decide,
    by decide⟩, ?_⟩
  decide

/-- C4 as amended: the noc_modification fan-out runs only inside the
peer-assignee branch — it requires, in addition to a noc-resolved
modifier and a non-empty diff, that the prior document has a truthy
assignee with status Assigned who is not the modifier.  When it runs,
exactly one notification is persisted per current NOC-department member
(membership looked up at event time, first 100) whose
`notify_on_noc_ticket_modification` is not false (absent defaults to
notify), excluding the modifier; each message carries the field diff
summary truncated to 3 entries plus a "+N more" suffix. -/
theorem C4_noc_modification_amended :
    ∀ (k : TicketKind) (db : Db) (tid : String) (p : TicketPatch)
      (cu : CurrentUser) (now : Nat) (ex : Ticket),
      findById (db.coll k) tid = some ex →
      ¬ badAssignedStatus (effStatus ex p) (effAssigned ex p) →
      ∃ dbOut r, update_ticket_core k noFaults db tid p cu now =
          (dbOut, .ok r) ∧
        dbOut.ticket_notifications.filter
            (fun n => n.event_type == "noc_modification") =
          db.ticket_notifications.filter
            (fun n => n.event_type == "noc_modification") ++
          (if shouldNotify ex cu.id ∧ modifierRole cu db = "noc" ∧
              buildChanges ex p (stampCond ex p) now ≠ [] then
            nocModDocsFor db.departments db.users ex cu.id cu.username
              (buildChanges ex p (stampCond ex p) now) k.str now
           else []) ∧
        (∀ nd, db.departments.find? (fun d => d.name == "NOC") = some nd →
          nocModDocsFor db.departments db.users ex cu.id cu.username
              (buildChanges ex p (stampCond ex p) now) k.str now =
            ((nocUsersL db.users nd.id).filter (nocModKeep cu.id)).map
              (nocModDoc ex k.str cu.id cu.username
                (buildChanges ex p (stampCond ex p) now) now)) ∧
        (∀ u, nocModKeep cu.id u = true ↔
          (u.notify_on_noc_ticket_modification ≠ some false ∧
            u.id ≠ "" ∧ u.id ≠ cu.id)) ∧
        (∀ u, (nocModDoc ex k.str cu.id cu.username
            (buildChanges ex p (stampCond ex p) now) now u).assigned_to = u.id ∧
          (nocModDoc ex k.str cu.id cu.username
            (buildChanges ex p (stampCond ex p) now) now u).message =
            "Ticket " ++ ex.ticket_number ++ " for " ++ ex.customer ++
              " was modified by " ++ cu.username ++ ": " ++
              changeSummary (buildChanges ex p (stampCond ex p) now)) ∧
        (∀ ch : List Change, 3 < ch.length →
          changeSummary ch =
            String.intercalate "; " ((ch.map renderChange).take 3) ++
              "... (+" ++ toString (ch.length - 3) ++ " more)") := by
  intro k db tid p cu now ex hfind hval
  refine ⟨_, _, update_core_noFaults_spec k db tid p cu now ex hfind hval,
    ?_, ?_, ?_, fun u => ⟨rfl, rfl⟩, ?_⟩
  · rw [updFinalDb_notifs, List.filter_append]
    congr 1
    unfold updateNotifs
    rw [List.filter_append, List.filter_append]
    have hA : (if shouldNotify ex cu.id then
          [tmodDocOf ex tid k.str cu.id cu.username now] else []).filter
        (fun n => n.event_type == "noc_modification") = [] := by
      split <;> rfl
    have hC : (if effStatus ex p ≠ "" ∧ effStatus ex p ≠ ex.status then
          match statusNotifType (effStatus ex p) with
          | some nt => amDocsFor db.clients db.users
              (applyPatch ex p (stampCond ex p) now) nt k.str cu.id now
          | none => []
        else []).filter (fun n => n.event_type == "noc_modification") = [] := by
      split
      · cases hnt : statusNotifType (effStatus ex p) with
        | none => rfl
        | some nt =>
          exact filter_not_event _ _ (fun n hn => by
            rw [amDocsFor_event _ _ _ _ _ _ _ n hn]
            exact statusNotifType_ne_nocmod hnt)
      · rfl
    rw [hA, hC, List.append_nil, List.nil_append]
    by_cases hcond : shouldNotify ex cu.id ∧ modifierRole cu db = "noc" ∧
        buildChanges ex p (stampCond ex p) now ≠ []
    · rw [if_pos hcond]
      exact filter_event_self _ _ (nocModDocsFor_event _ _ _ _ _ _ _ _)
    · rw [if_neg hcond]
      rfl
  · intro nd hnd
    unfold nocModDocsFor
    rw [hnd]
  · intro u
    unfold nocModKeep
    cases hp : u.notify_on_noc_ticket_modification with
    | none => simp [hp]
    | some b => cases b <;> simp [hp]
  · intro ch hlen
    simp only [changeSummary]
    rw [if_pos (by simpa using hlen)]
    simp [String.append_assoc]

/-- Witness for the amended C4: with the peer-assignee conditions
holding, the NOC fan-out persists exactly one notification, for the
peer whose preference is not false. -/
theorem C4_noc_modification_amended_witness :
    ∃ dbOut r, update_ticket_core .sms noFaults dbC4a "t1"
        { priority := some "High" } cuNoc 9 = (dbOut, .ok r) ∧
      dbOut.ticket_notifications.filter
          (fun n => n.event_type == "noc_modification") =
        [nocModDoc
          { id := "t1", ticket_number := "TN1", customer := "ACME",
            status := "Assigned", assigned_to := some "u2" }
          "sms" "u1" "nina"
          (buildChanges
            { id := "t1", ticket_number := "TN1", customer := "ACME",
              status := "Assigned", assigned_to := some "u2" }
            { priority := some "High" }
            (stampCond
              { id := "t1", ticket_number := "TN1", customer := "ACME",
                status := "Assigned", assigned_to := some "u2" }
              { priority := some "High" }) 9)
          9 uNoc2] := by
  obtain ⟨dbOut, r, h1, h2, _⟩ :=
    C4_noc_modification_amended .sms dbC4a "t1" { priority := some "High" }
      cuNoc 9
      { id := "t1", ticket_number := "TN1", customer := "ACME",
        status := "Assigned", assigned_to := some "u2" }
      (by decide) (by decide)
  refine ⟨dbOut, r, h1, ?_⟩
  rw [h2, if_pos ⟨by decide, by decide, by decide⟩]
  decide

/-! Claim C7. -/

set_option maxRecDepth 8000 in
/-- Counterexample to C7 as stated: a NOC department with 101 current
members, every one of them with `notify_on_am_action` not false, yet
an am-role action append persists only 100 am_action notifications —
the roster query fetches at most the first 100 members
(`to_list(100)`), so the count does not equal the number of eligible
current members. -/
theorem C7_am_action_counterexample :
    ((dbC7big.users.filter
        (fun u => u.department_id == some "d-noc")).filter
      (fun w => w.notify_on_am_action ≠ some false)).length = 101 ∧
    (add_ticket_action .sms noFaults dbC7big "t1" "hello"
        cuAm 7 "a9").1.ticket_notifications.length = 100 ∧
    (add_ticket_action .sms noFaults dbC7big "t1" "hello"
        cuAm 7 "a9").2.toOption.map TicketAction.id = some "a9" :=
  ⟨by decide, by decide, rfl⟩

/-- C7 as amended: when a user whose role resolves to am appends an
action, the persisted am_action notifications are exactly one per
member of the first-100-capped NOC roster (membership looked up by
department id at event time, capped by the `to_list(100)` roster
query) whose `notify_on_am_action` is not false; their recipients all
are roster members, a user id outside the current membership receives
none (so removal from the department alone stops future
notifications), and a missing NOC department notifies nobody. -/
theorem C7_am_action_fanout_amended :
    ∀ (k : TicketKind) (db : Db) (tid text : String) (cu : CurrentUser)
      (now : Nat) (aid : String) (u : User) (t : Ticket),
      findUser db cu.id = some u →
      findById (db.coll k) tid = some t →
      get_user_role_from_department
        (match u.department_id with
         | some did => findDept db did
         | none => none) = "am" →
      ∃ dbOut act, add_ticket_action k noFaults db tid text cu now aid =
          (dbOut, .ok act) ∧
        dbOut.ticket_notifications =
          db.ticket_notifications ++
            amActionDocsFor db.departments db.users t text cu.id k.str now ∧
        (∀ nd, db.departments.find? (fun d => d.name == "NOC") = some nd →
          (∀ w ∈ nocUsersL db.users nd.id, w.id ≠ "") →
          (amActionDocsFor db.departments db.users t text cu.id k.str now).length =
            ((nocUsersL db.users nd.id).filter
              (fun w => w.notify_on_am_action ≠ some false)).length) ∧
        (∀ nd, db.departments.find? (fun d => d.name == "NOC") = some nd →
          ∀ n ∈ amActionDocsFor db.departments db.users t text cu.id k.str now,
            n.assigned_to ∈ (nocUsersL db.users nd.id).map User.id) ∧
        (∀ uid : String,
          (∀ nd, db.departments.find? (fun d => d.name == "NOC") = some nd →
            uid ∉ (nocUsersL db.users nd.id).map User.id) →
          ∀ n ∈ amActionDocsFor db.departments db.users t text cu.id k.str now,
            n.assigned_to ≠ uid) ∧
        (db.departments.find? (fun d => d.name == "NOC") = none →
          amActionDocsFor db.departments db.users t text cu.id k.str now = []) := by
  intro k db tid text cu now aid u t hu ht hrole
  have hspec := add_action_noFaults_spec k db tid text cu now aid u t hu ht
  rw [if_pos hrole] at hspec
  refine ⟨_, _, hspec, ?_, ?_, ?_, ?_, ?_⟩
  · cases k <;> simp [Db.setColl]
  · intro nd hnd hids
    unfold amActionDocsFor
    rw [hnd]
    simp only [List.length_map]
    congr 1
    apply List.filter_congr
    intro w hw
    unfold amActionKeep
    have hid := hids w hw
    cases hp : w.notify_on_am_action with
    | none => simp [hid]
    | some b => cases b <;> simp [hid]
  · intro nd hnd n hn
    unfold amActionDocsFor at hn
    rw [hnd] at hn
    simp only [List.mem_map] at hn
    obtain ⟨w, hw, hwn⟩ := hn
    rw [← hwn]
    rw [List.mem_map]
    exact ⟨w, List.mem_of_mem_filter hw, rfl⟩
  · intro uid huid n hn hne
    cases hnd : db.departments.find? (fun d => d.name == "NOC") with
    | none =>
      unfold amActionDocsFor at hn
      rw [hnd] at hn
      exact List.not_mem_nil _ hn
    | some nd =>
      unfold amActionDocsFor at hn
      rw [hnd] at hn
      simp only [List.mem_map] at hn
      obtain ⟨w, hw, hwn⟩ := hn
      apply huid nd hnd
      rw [← hne, ← hwn]
      rw [List.mem_map]
      exact ⟨w, List.mem_of_mem_filter hw, rfl⟩
  · intro hnd
    unfold amActionDocsFor
    rw [hnd]

/-- Witness for the amended C7: one am_action notification, to the
member who did not opt out. -/
theorem C7_am_action_fanout_amended_witness :
    ∃ dbOut act, add_ticket_action .sms noFaults dbC7 "t1" "checked upstream"
        cuAm 11 "a9" = (dbOut, .ok act) ∧
      (dbOut.ticket_notifications.map (fun n => n.assigned_to)) = ["u1"] ∧
      (dbOut.ticket_notifications.map (fun n => n.event_type)) = ["am_action"] := by
  obtain ⟨dbOut, act, h1, h2, _⟩ :=
    C7_am_action_fanout_amended .sms dbC7 "t1" "checked upstream" cuAm 11 "a9" uAm
      { id := "t1", ticket_number := "TN1", customer := "ACME",
        status := "Assigned", assigned_to := some "u1" }
      (by decide) (by decide) (by decide)
  refine ⟨dbOut, act, h1, ?_, ?_⟩ <;> rw [h2] <;> decide

/-! Claim C8. -/

theorem create_audit_log_err {f : Faults} {c : Ctx} {a : AuditLog}
    {c2 : Ctx} {e : HErr} (h : create_audit_log f c a = (c2, some e)) :
    e = err500 := by
  unfold create_audit_log at h
  split at h <;> simp_all

theorem insert_notification_err {f : Faults} {c : Ctx}
    {n : NotificationDoc} {c2 : Ctx} {e : HErr}
    (h : insert_notification f c n = (c2, some e)) : e = err500 := by
  unfold insert_notification at h
  split at h <;> simp_all

theorem insertMany_err {f : Faults} :
    ∀ {l : List NotificationDoc} {c c2 : Ctx} {e : HErr},
      insertMany f c l = (c2, some e) → e = err500 := by
  intro l
  induction l with
  | nil =>
    intro c c2 e h
    unfold insertMany at h
    simp at h
  | cons d rest ih =>
    intro c c2 e h
    unfold insertMany at h
    cases hi : insert_notification f c d with
    | mk ci oi =>
      rw [hi] at h
      cases oi with
      | none => exact ih (by simpa [seqStep] using h)
      | some e2 =>
        simp [seqStep] at h
        rw [← h.2]
        exact insert_notification_err hi

/-- Counterexample to C8 as stated: a caller whose resolved ticket
scope is "sms" (neither "all" nor "voice") updates a VOICE ticket; the
call succeeds and the write is performed, because `update_voice_ticket`
has no scope check at all. -/
theorem C8_scope_counterexample :
    get_user_ticket_type (get_user_department cuNocSms dbC8) = "sms" ∧
    (update_voice_ticket noFaults dbC8 "t1" { priority := some "High" }
      cuNocSms 9).2.toOption.map Ticket.priority = some "High" ∧
    (update_voice_ticket noFaults dbC8 "t1" { priority := some "High" }
      cuNocSms 9).1.voice_tickets.map Ticket.priority = ["High"] := by
  refine ⟨by decide, ?_, ?_⟩ <;> decide

/-- C8 as amended: only the SMS endpoints enforce the ticket-scope
rule.  `update_sms_ticket` and `create_sms_ticket` reject a scope that
is neither "all" nor "sms" with a 403 and no write; the Voice update
and create reject only am-resolved callers, running the core for every
other caller regardless of scope; and the action-append endpoints
perform no authorization check at all — every failure they can return
is a 404 (ticket missing) or a 500 (internal failure), never a 403. -/
theorem C8_scope_enforcement_amended :
    (∀ (f : Faults) (db : Db) (tid : String) (p : TicketPatch)
        (cu : CurrentUser) (now : Nat),
      get_user_ticket_type (get_user_department cu db) ≠ "all" →
      get_user_ticket_type (get_user_department cu db) ≠ "sms" →
      update_sms_ticket f db tid p cu now =
        (db, .error ⟨403, "You do not have access to SMS tickets"⟩)) ∧
    (∀ (f : Faults) (db : Db) (payload : TicketCreate) (cu : CurrentUser)
        (now : Nat) (newId : String),
      get_user_ticket_type (get_user_department cu db) ≠ "all" →
      get_user_ticket_type (get_user_department cu db) ≠ "sms" →
      create_sms_ticket f db payload cu now newId =
        (db, .error ⟨403, "You do not have access to SMS tickets"⟩)) ∧
    (∀ (f : Faults) (db : Db) (tid : String) (p : TicketPatch)
        (cu : CurrentUser) (now : Nat),
      (modifierRole cu db = "am" →
        update_voice_ticket f db tid p cu now =
          (db, .error ⟨403, "Account Managers cannot modify tickets"⟩)) ∧
      (modifierRole cu db ≠ "am" →
        update_voice_ticket f db tid p cu now =
          update_ticket_core .voice f db tid p cu now)) ∧
    (∀ (f : Faults) (db : Db) (payload : TicketCreate) (cu : CurrentUser)
        (now : Nat) (newId : String),
      (cu.role = "am" →
        create_voice_ticket f db payload cu now newId =
          (db, .error ⟨403, "Account Managers cannot create tickets"⟩)) ∧
      (cu.role ≠ "am" →
        create_voice_ticket f db payload cu now newId =
          create_ticket_core .voice f db payload cu now newId)) ∧
    (∀ (k : TicketKind) (f : Faults) (db : Db) (tid text : String)
        (cu : CurrentUser) (now : Nat) (aid : String) (e : HErr),
      (add_ticket_action k f db tid text cu now aid).2 = .error e →
      e.status = 404 ∨ e.status = 500) := by
  refine ⟨?_, ?_, ?_, ?_, ?_⟩
  · intro f db tid p cu now h1 h2
    unfold update_sms_ticket
    rw [if_pos ⟨h1, h2⟩]
  · intro f db payload cu now newId h1 h2
    unfold create_sms_ticket
    rw [if_pos ⟨h1, h2⟩]
  · intro f db tid p cu now
    constructor
    · intro h
      rw [update_voice_guard, if_pos h]
    · intro h
      rw [update_voice_guard, if_neg h]
  · intro f db payload cu now newId
    constructor
    · intro h
      unfold create_voice_ticket
      rw [if_pos h]
    · intro h
      unfold create_voice_ticket
      rw [if_neg h]
  · intro k f db tid text cu now aid e h
    unfold add_ticket_action at h
    split at h
    · -- ticket not found: 404
      simp only [] at h
      injection h with h
      rw [← h]
      left
      rfl
    · simp only [] at h
      split at h
      · -- audit insert raised: 500
        rename_i c2 e2 heq
        simp only [] at h
        injection h with h
        rw [← h, create_audit_log_err heq]
        right
        rfl
      · split at h
        · -- user document missing: 500
          simp only [] at h
          injection h with h
          rw [← h]
          right
          rfl
        · split at h
          · split at h
            · -- a notification insert raised: 500
              rename_i c3 e3 hnn
              simp only [] at h
              injection h with h
              rw [notify_am_action_eq] at hnn
              rw [← h, insertMany_err hnn]
              right
              rfl
            · exact Except.noConfusion h
          · exact Except.noConfusion h

/-- Witness for the amended C8: a voice-scoped caller is rejected by
the SMS update, and an sms-scoped caller reaches the Voice core. -/
theorem C8_scope_enforcement_amended_witness :
    update_sms_ticket noFaults dbC8 "t1" { priority := some "High" }
        cuNocVoice 9 =
      (dbC8, .error ⟨403, "You do not have access to SMS tickets"⟩) ∧
    update_voice_ticket noFaults dbC8 "t1" { priority := some "High" }
        cuNocSms 9 =
      update_ticket_core .voice noFaults dbC8 "t1"
        { priority := some "High" } cuNocSms 9 :=
  ⟨C8_scope_enforcement_amended.1 noFaults dbC8 "t1" _ cuNocVoice 9
      (by decide) (by decide),
   (C8_scope_enforcement_amended.2.2.1 noFaults dbC8 "t1" _ cuNocSms 9).2
      (by decide)⟩

/-! Claim C5. -/

theorem insert_notification_coll (k : TicketKind) (f : Faults) (c : Ctx)
    (n : NotificationDoc) :
    ((insert_notification f c n).1).db.coll k = c.db.coll k := by
  unfold insert_notification
  split <;> (cases k <;> rfl)

theorem create_audit_log_coll (k : TicketKind) (f : Faults) (c : Ctx)
    (a : AuditLog) :
    ((create_audit_log f c a).1).db.coll k = c.db.coll k := by
  unfold create_audit_log
  split <;> (cases k <;> rfl)

theorem seqStep_coll {k : TicketKind} {X : List Ticket} {s : Step}
    {g : Ctx → Step} (hs : (s.1).db.coll k = X)
    (hg : ∀ c, (((g c).1).db.coll k = c.db.coll k)) :
    (((seqStep s g).1)).db.coll k = X := by
  rcases s with ⟨c, o⟩
  cases o with
  | none => simpa [seqStep] using (hg c).trans hs
  | some e => simpa [seqStep] using hs

theorem insertMany_coll (k : TicketKind) (f : Faults) :
    ∀ (l : List NotificationDoc) (c : Ctx),
      ((insertMany f c l).1).db.coll k = c.db.coll k := by
  intro l
  induction l with
  | nil => intro c; rfl
  | cons d rest ih =>
    intro c
    unfold insertMany
    exact seqStep_coll (insert_notification_coll k f c d) (fun c2 => ih c2)

theorem notify_ams_coll (k : TicketKind) (f : Faults) (c : Ctx) (t : Ticket)
    (et tt cb : String) (now : Nat) :
    ((notify_ams_about_ticket f c t et tt cb now).1).db.coll k =
      c.db.coll k := by
  rw [notify_ams_eq]
  exact insertMany_coll k f _ c

theorem notify_noc_mod_coll (k : TicketKind) (f : Faults) (c : Ctx)
    (t : Ticket) (mb mbu : String) (ch : List Change) (tt : String)
    (now : Nat) :
    ((notify_noc_about_noc_modification f c t mb mbu ch tt now).1).db.coll k =
      c.db.coll k := by
  rw [notify_noc_mod_eq]
  exact insertMany_coll k f _ c

/-- Under any fault model, once the guards and validation pass, the
primary ticket mutation is in the final store: downstream failures do
not roll it back. -/
theorem update_core_coll (k : TicketKind) (f : Faults) (db : Db)
    (tid : String) (p : TicketPatch) (cu : CurrentUser) (now : Nat)
    (ex : Ticket) (hfind : findById (db.coll k) tid = some ex)
    (hval : ¬ badAssignedStatus (effStatus ex p) (effAssigned ex p)) :
    ((update_ticket_core k f db tid p cu now).1).coll k =
      setTicket (db.coll k) tid (applyPatch ex p (stampCond ex p) now) := by
  unfold update_ticket_core
  simp only [hfind]
  rw [if_neg hval]
  have hAudit : ∀ c0 : Ctx,
      (((if buildChanges ex p (stampCond ex p) now ≠ [] then
          create_audit_log f c0
            (updateAuditRec k cu tid (applyPatch ex p (stampCond ex p) now) now)
        else (c0, none)).1)).db.coll k = c0.db.coll k := by
    intro c0
    split
    · exact create_audit_log_coll k f c0 _
    · rfl
  have hNotify : ∀ c : Ctx,
      (((if shouldNotify ex cu.id then
          seqStep
            (create_ticket_modification_notification f c tid
              ex.ticket_number k.str (ex.assigned_to.getD "") cu.id
              cu.username now)
            (fun c2 =>
              if modifierRole cu db = "noc" ∧
                  buildChanges ex p (stampCond ex p) now ≠ [] then
                notify_noc_about_noc_modification f c2 ex cu.id
                  cu.username (buildChanges ex p (stampCond ex p) now)
                  k.str now
              else (c2, none))
        else (c, none)).1)).db.coll k = c.db.coll k := by
    intro c
    split
    · refine seqStep_coll ?_ ?_
      · exact insert_notification_coll k f c _
      · intro c2
        split
        · exact notify_noc_mod_coll k f c2 _ _ _ _ _ _
        · rfl
    · rfl
  have hStatus : ∀ c : Ctx,
      (((if effStatus ex p ≠ "" ∧ effStatus ex p ≠ ex.status then
          match statusNotifType (effStatus ex p) with
          | some nt => notify_ams_about_ticket f c
              (applyPatch ex p (stampCond ex p) now) nt k.str cu.id now
          | none => (c, none)
        else (c, none)).1)).db.coll k = c.db.coll k := by
    intro c
    split
    · split
      · exact notify_ams_coll k f c _ _ _ _ _
      · rfl
    · rfl
  have hchain := seqStep_coll
    (seqStep_coll (hAudit ⟨db.setColl k (setTicket (db.coll k) tid
      (applyPatch ex p (stampCond ex p) now)), 0⟩) hNotify) hStatus
  split
  · next c e heq =>
    have := heq ▸ hchain
    simpa using this
  · next c heq =>
    have := heq ▸ hchain
    simpa using this

/-- A recipient loop hit by a notification-insert fault: the inserts
before the failing one are persisted, the error propagates, and every
remaining recipient document is dropped. -/
theorem insertMany_fault {f : Faults} {j : Nat} (hf : f.notif_fail = some j) :
    ∀ (l : List NotificationDoc) (c : Ctx), c.nCount ≤ j →
      j < c.nCount + l.length →
      insertMany f c l =
        (⟨{ c.db with ticket_notifications :=
              c.db.ticket_notifications ++ l.take (j - c.nCount) }, j⟩,
          some err500) := by
  intro l
  induction l with
  | nil =>
    intro c h1 h2
    exact absurd h2 (by simp only [List.length_nil]; omega)
  | cons d rest ih =>
    intro c h1 h2
    unfold insertMany insert_notification
    by_cases hj : j = c.nCount
    · rw [hf, if_pos (by rw [hj])]
      subst hj
      simp [seqStep]
    · have hlt : c.nCount < j := lt_of_le_of_ne h1 (Ne.symm hj)
      rw [hf, if_neg (by simpa using hj)]
      rw [seqStep_ok]
      rw [ih ⟨{ c.db with ticket_notifications :=
            c.db.ticket_notifications ++ [d] }, c.nCount + 1⟩
          (by simpa using hlt)
          (by simp only [List.length_cons] at h2 ⊢; omega)]
      have hs : j - c.nCount = (j - (c.nCount + 1)) + 1 := by omega
      rw [hs]
      simp [List.take_succ_cons, List.append_assoc]

/-- An am-role action append with the j-th notification insert raising:
the action and the audit record are persisted, the first j recipient
notifications are persisted, the error propagates to the caller, and
the remaining recipients get nothing. -/
theorem add_action_notif_fault
    (k : TicketKind) (j : Nat) (db : Db) (tid text : String)
    (cu : CurrentUser) (now : Nat) (aid : String) (u : User) (t : Ticket)
    (hu : findUser db cu.id = some u)
    (ht : findById (db.coll k) tid = some t)
    (hrole : get_user_role_from_department
      (match u.department_id with
       | some did => findDept db did
       | none => none) = "am")
    (hj : j < (amActionDocsFor db.departments db.users t text
      cu.id k.str now).length) :
    add_ticket_action k ⟨false, some j⟩ db tid text cu now aid =
      (let act : TicketAction := ⟨aid, text, cu.id, u.username, now⟩
       let t2 := { t with actions := t.actions ++ [act], updated_at := now }
       let base := db.setColl k (setTicket (db.coll k) tid t2)
       ({ base with
          audit_logs := base.audit_logs ++
            [actAuditRec k cu u.username aid t now],
          ticket_notifications := base.ticket_notifications ++
            (amActionDocsFor db.departments db.users t text
              cu.id k.str now).take j },
        Except.error err500)) := by
  unfold add_ticket_action
  simp only [hu, ht]
  have hrole2 := hrole
  simp only [findDept] at hrole2
  simp [hrole2, findDept, create_audit_log, notify_am_action_eq, seqStep_ok]
  rw [@insertMany_fault ⟨false, some j⟩ j rfl _ _ (Nat.zero_le j)
    (by simpa using hj)]
  simp

/-- Counterexample to C5 as stated: with the audit-log insert raising,
the caller of updateTicket receives the propagated 500 error instead
of the mutated entity, and no notification at all is persisted by the
call — although the fault-free run of the same call persists two — so
the failure both propagates and prevents the remaining recipients'
notifications.  (The mutation itself is not rolled back.) -/
theorem C5_best_effort_counterexample :
    (update_sms_ticket { audit_fail := true } dbC4a "t1"
      { priority := some "High" } cuNoc 9).2 = .error err500 ∧
    (update_sms_ticket { audit_fail := true } dbC4a "t1"
      { priority := some "High" } cuNoc 9).1.sms_tickets.map Ticket.priority =
      ["High"] ∧
    (update_sms_ticket { audit_fail := true } dbC4a "t1"
      { priority := some "High" } cuNoc 9).1.ticket_notifications = [] ∧
    (update_sms_ticket noFaults dbC4a "t1"
      { priority := some "High" } cuNoc 9).1.ticket_notifications.length = 2 := by
  exact ⟨rfl, by decide, by decide, by decide⟩

/-- C5 as amended: once the primary mutation is persisted the mutation
itself survives any downstream failure (no rollback), but a failure
raised by the audit write or a notification write propagates to the
caller as a 500 — the caller does not receive the mutated entity — and
skips every remaining downstream write.  The second conjunct shows the
audit-fault run in full: the final store carries the mutation and
nothing else, and the call returns the error; the third shows the same
for the action-append handler; the fourth shows a single recipient
notification insert raising mid-fan-out: the mutation, the audit
record, and the recipients before the failing one are kept, the error
propagates, and every remaining recipient notification is
suppressed. -/
theorem C5_downstream_failure_amended :
    (∀ (k : TicketKind) (f : Faults) (db : Db) (tid : String)
        (p : TicketPatch) (cu : CurrentUser) (now : Nat) (ex : Ticket),
      findById (db.coll k) tid = some ex →
      ¬ badAssignedStatus (effStatus ex p) (effAssigned ex p) →
      ((update_ticket_core k f db tid p cu now).1).coll k =
        setTicket (db.coll k) tid (applyPatch ex p (stampCond ex p) now)) ∧
    (∀ (k : TicketKind) (nf : Option Nat) (db : Db) (tid : String)
        (p : TicketPatch) (cu : CurrentUser) (now : Nat) (ex : Ticket),
      findById (db.coll k) tid = some ex →
      ¬ badAssignedStatus (effStatus ex p) (effAssigned ex p) →
      buildChanges ex p (stampCond ex p) now ≠ [] →
      update_ticket_core k ⟨true, nf⟩ db tid p cu now =
        (db.setColl k (setTicket (db.coll k) tid
          (applyPatch ex p (stampCond ex p) now)), .error err500)) ∧
    (∀ (k : TicketKind) (db : Db) (tid text : String) (cu : CurrentUser)
        (now : Nat) (aid : String) (u : User) (t : Ticket),
      findUser db cu.id = some u →
      findById (db.coll k) tid = some t →
      add_ticket_action k ⟨true, none⟩ db tid text cu now aid =
        (db.setColl k (setTicket (db.coll k) tid
          { t with
            actions := t.actions ++
              [{ id := aid, text := text, created_by := cu.id,
                 created_by_username := u.username, created_at := now }],
            updated_at := now }), .error err500)) ∧
    (∀ (k : TicketKind) (j : Nat) (db : Db) (tid text : String)
        (cu : CurrentUser) (now : Nat) (aid : String) (u : User) (t : Ticket),
      findUser db cu.id = some u →
      findById (db.coll k) tid = some t →
      get_user_role_from_department
        (match u.department_id with
         | some did => findDept db did
         | none => none) = "am" →
      j < (amActionDocsFor db.departments db.users t text
        cu.id k.str now).length →
      add_ticket_action k ⟨false, some j⟩ db tid text cu now aid =
        (let act : TicketAction := ⟨aid, text, cu.id, u.username, now⟩
         let t2 := { t with actions := t.actions ++ [act], updated_at := now }
         let base := db.setColl k (setTicket (db.coll k) tid t2)
         ({ base with
            audit_logs := base.audit_logs ++
              [actAuditRec k cu u.username aid t now],
            ticket_notifications := base.ticket_notifications ++
              (amActionDocsFor db.departments db.users t text
                cu.id k.str now).take j },
          Except.error err500))) := by
  refine ⟨update_core_coll, ?_, ?_, add_action_notif_fault⟩
  · intro k nf db tid p cu now ex hfind hval hch
    unfold update_ticket_core
    simp only [hfind]
    rw [if_neg hval]
    rw [if_pos hch]
    simp [create_audit_log, seqStep]
  · intro k db tid text cu now aid u t hu ht
    unfold add_ticket_action
    simp only [hu, ht]
    simp [create_audit_log]

/-- Witness for the amended C5: the audit-fault update at the
counterexample store, and a notification-insert fault hitting the
second of two recipients of an am_action fan-out — the first recipient
keeps their notification, the caller gets the error, and the second
recipient gets nothing, although the fault-free run notifies both. -/
theorem C5_downstream_failure_amended_witness :
    (update_ticket_core .sms ⟨true, none⟩ dbC4a "t1"
        { priority := some "High" } cuNoc 9 =
      (dbC4a.setColl .sms (setTicket (dbC4a.coll .sms) "t1"
        (applyPatch
          { id := "t1", ticket_number := "TN1", customer := "ACME",
            status := "Assigned", assigned_to := some "u2" }
          { priority := some "High" }
          (stampCond
            { id := "t1", ticket_number := "TN1", customer := "ACME",
              status := "Assigned", assigned_to := some "u2" }
            { priority := some "High" }) 9)), .error err500)) ∧
    ((add_ticket_action .sms ⟨false, some 1⟩ dbC5b "t1" "hello"
        cuAm 7 "a9").1.ticket_notifications.map
      (fun n => n.assigned_to) = ["u1"]) ∧
    ((add_ticket_action .sms ⟨false, some 1⟩ dbC5b "t1" "hello"
        cuAm 7 "a9").2 = .error err500) ∧
    ((add_ticket_action .sms noFaults dbC5b "t1" "hello"
        cuAm 7 "a9").1.ticket_notifications.map
      (fun n => n.assigned_to) = ["u1", "u2"]) := by
  refine ⟨C5_downstream_failure_amended.2.1 .sms none dbC4a "t1"
      { priority := some "High" } cuNoc 9
      { id := "t1", ticket_number := "TN1", customer := "ACME",
        status := "Assigned", assigned_to := some "u2" }
      (by decide) (by decide) (by decide), ?_, ?_, by decide⟩
  · rw [C5_downstream_failure_amended.2.2.2 .sms 1 dbC5b "t1" "hello"
      cuAm 7 "a9" uAm tC5b (by decide) (by decide) (by decide) (by decide)]
    decide
  · rw [C5_downstream_failure_amended.2.2.2 .sms 1 dbC5b "t1" "hello"
      cuAm 7 "a9" uAm tC5b (by decide) (by decide) (by decide) (by decide)]

/-! Claim C10: lemmas about the registry association lists. -/

theorem lookupCU_of_mem {m : List (Nat × String)}
    (hn : (m.map Prod.fst).Nodup) {q : Nat × String} (hq : q ∈ m) :
    lookupCU m q.fst = some q.snd := by
  induction m with
  | nil => exact absurd hq (List.not_mem_nil q)
  | cons r rest ih =>
    rw [List.map_cons, List.nodup_cons] at hn
    rcases List.mem_cons.mp hq with h | h
    · rw [h]
      unfold lookupCU
      rw [List.find?_cons_of_pos _ (by simp)]
      rfl
    · have hne : r.fst ≠ q.fst := by
        intro he
        exact hn.1 (he ▸ List.mem_map_of_mem Prod.fst h)
      unfold lookupCU at ih ⊢
      rw [List.find?_cons_of_neg _ (by simpa using hne)]
      exact ih hn.2 h

theorem lookupAC_of_mem {m : List (String × List Nat)}
    (hn : (m.map Prod.fst).Nodup) {p : String × List Nat} (hp : p ∈ m) :
    lookupAC m p.fst = some p.snd := by
  induction m with
  | nil => exact absurd hp (List.not_mem_nil p)
  | cons r rest ih =>
    rw [List.map_cons, List.nodup_cons] at hn
    rcases List.mem_cons.mp hp with h | h
    · rw [h]
      unfold lookupAC
      rw [List.find?_cons_of_pos _ (by simp)]
      rfl
    · have hne : r.fst ≠ p.fst := by
        intro he
        exact hn.1 (he ▸ List.mem_map_of_mem Prod.fst h)
      unfold lookupAC at ih ⊢
      rw [List.find?_cons_of_neg _ (by simpa using hne)]
      exact ih hn.2 h

theorem mem_of_lookupAC {m : List (String × List Nat)} {u : String}
    {l : List Nat} (h : lookupAC m u = some l) : (u, l) ∈ m := by
  unfold lookupAC at h
  cases hf : m.find? (fun p => p.fst == u) with
  | none => rw [hf] at h; exact Option.noConfusion h
  | some p =>
    rw [hf] at h
    have hm := List.mem_of_find?_eq_some hf
    have hp := List.find?_some hf
    rw [beq_iff_eq] at hp
    have hl : p.snd = l := Option.some.inj (by simpa using h)
    have : p = (u, l) := by
      rcases p with ⟨a, b⟩
      simp only at hp hl
      rw [hp, hl]
    exact this ▸ hm

theorem mem_of_lookupCU {m : List (Nat × String)} {ws : Nat} {u : String}
    (h : lookupCU m ws = some u) : (ws, u) ∈ m := by
  unfold lookupCU at h
  cases hf : m.find? (fun p => p.fst == ws) with
  | none => rw [hf] at h; exact Option.noConfusion h
  | some p =>
    rw [hf] at h
    have hm := List.mem_of_find?_eq_some hf
    have hp := List.find?_some hf
    rw [beq_iff_eq] at hp
    have hl : p.snd = u := Option.some.inj (by simpa using h)
    have : p = (ws, u) := by
      rcases p with ⟨a, b⟩
      simp only at hp hl
      rw [hp, hl]
    exact this ▸ hm

theorem mem_keys_cuAssign {m : List (Nat × String)} {ws : Nat} {u : String}
    {x : Nat} :
    x ∈ (cuAssign m ws u).map Prod.fst ↔ x ∈ m.map Prod.fst ∨ x = ws := by
  induction m with
  | nil => simp [cuAssign]
  | cons q rest ih =>
    unfold cuAssign
    by_cases hq : q.fst = ws
    · rw [if_pos (by simpa using hq)]
      simp only [List.map_cons, List.mem_cons, hq]
      tauto
    · rw [if_neg (by simpa using hq)]
      simp only [List.map_cons, List.mem_cons, ih]
      tauto

theorem nodup_keys_cuAssign {m : List (Nat × String)} {ws : Nat}
    {u : String} (hn : (m.map Prod.fst).Nodup) :
    ((cuAssign m ws u).map Prod.fst).Nodup := by
  induction m with
  | nil => simp [cuAssign]
  | cons q rest ih =>
    rw [List.map_cons, List.nodup_cons] at hn
    unfold cuAssign
    by_cases hq : q.fst = ws
    · rw [if_pos (by simpa using hq)]
      rw [List.map_cons, List.nodup_cons]
      exact ⟨hq ▸ hn.1, hn.2⟩
    · rw [if_neg (by simpa using hq)]
      rw [List.map_cons, List.nodup_cons]
      refine ⟨?_, ih hn.2⟩
      intro hx
      rcases mem_keys_cuAssign.mp hx with h | h
      · exact hn.1 h
      · exact hq h

theorem lookupCU_cuAssign_self {m : List (Nat × String)} {ws : Nat}
    {u : String} : lookupCU (cuAssign m ws u) ws = some u := by
  induction m with
  | nil =>
    unfold cuAssign lookupCU
    rw [List.find?_cons_of_pos _ (by simp)]
    rfl
  | cons q rest ih =>
    unfold cuAssign
    by_cases hq : q.fst = ws
    · rw [if_pos (by simpa using hq)]
      unfold lookupCU
      rw [List.find?_cons_of_pos _ (by simp)]
      rfl
    · rw [if_neg (by simpa using hq)]
      unfold lookupCU at ih ⊢
      rw [List.find?_cons_of_neg _ (by simpa using hq)]
      exact ih

theorem lookupCU_cuAssign_other {m : List (Nat × String)} {ws : Nat}
    {u : String} {x : Nat} (hne : x ≠ ws) :
    lookupCU (cuAssign m ws u) x = lookupCU m x := by
  induction m with
  | nil =>
    unfold cuAssign lookupCU
    rw [List.find?_cons_of_neg _ (by simpa using Ne.symm hne)]
  | cons q rest ih =>
    unfold cuAssign
    by_cases hq : q.fst = ws
    · rw [if_pos (by simpa using hq)]
      unfold lookupCU
      rw [List.find?_cons_of_neg _ (by simpa using Ne.symm hne),
        List.find?_cons_of_neg _
          (by simp only [beq_iff_eq]; rw [hq]; exact Ne.symm hne)]
    · rw [if_neg (by simpa using hq)]
      by_cases hx : q.fst = x
      · unfold lookupCU
        rw [List.find?_cons_of_pos _ (by simpa using hx),
          List.find?_cons_of_pos _ (by simpa using hx)]
      · unfold lookupCU at ih ⊢
        rw [List.find?_cons_of_neg _ (by simpa using hx),
          List.find?_cons_of_neg _ (by simpa using hx)]
        exact ih

theorem mem_cuAssign {m : List (Nat × String)} {ws : Nat} {u : String}
    {q : Nat × String} (h : q ∈ cuAssign m ws u) :
    q ∈ m ∨ q = (ws, u) := by
  induction m with
  | nil => simpa [cuAssign] using h
  | cons r rest ih =>
    unfold cuAssign at h
    by_cases hr : r.fst = ws
    · rw [if_pos (by simpa using hr)] at h
      rcases List.mem_cons.mp h with h2 | h2
      · exact Or.inr h2
      · exact Or.inl (List.mem_cons_of_mem r h2)
    · rw [if_neg (by simpa using hr)] at h
      rcases List.mem_cons.mp h with h2 | h2
      · exact Or.inl (by rw [h2]; exact List.mem_cons_self r rest)
      · rcases ih h2 with hm | he
        · exact Or.inl (List.mem_cons_of_mem r hm)
        · exact Or.inr he

theorem lookupCU_none_iff {m : List (Nat × String)} {ws : Nat} :
    lookupCU m ws = none ↔ ws ∉ m.map Prod.fst := by
  unfold lookupCU
  rw [Option.map_eq_none', List.find?_eq_none]
  constructor
  · intro h hx
    rw [List.mem_map] at hx
    obtain ⟨q, hq, hqe⟩ := hx
    exact absurd (by simpa using hqe) (by simpa using h q hq)
  · intro h q hq
    simp only [beq_iff_eq]
    intro he
    exact h (he ▸ List.mem_map_of_mem Prod.fst hq)

theorem mem_keys_acInsertChan {m : List (String × List Nat)} {u x : String}
    {ws : Nat} :
    x ∈ (acInsertChan m u ws).map Prod.fst ↔ x ∈ m.map Prod.fst ∨ x = u := by
  induction m with
  | nil => simp [acInsertChan]
  | cons q rest ih =>
    unfold acInsertChan
    by_cases hq : q.fst = u
    · rw [if_pos (by simpa using hq)]
      simp only [List.map_cons, List.mem_cons, hq]
      tauto
    · rw [if_neg (by simpa using hq)]
      simp only [List.map_cons, List.mem_cons, ih]
      tauto

theorem nodup_keys_acInsertChan {m : List (String × List Nat)} {u : String}
    {ws : Nat} (hn : (m.map Prod.fst).Nodup) :
    ((acInsertChan m u ws).map Prod.fst).Nodup := by
  induction m with
  | nil => simp [acInsertChan]
  | cons q rest ih =>
    rw [List.map_cons, List.nodup_cons] at hn
    unfold acInsertChan
    by_cases hq : q.fst = u
    · rw [if_pos (by simpa using hq)]
      rw [List.map_cons, List.nodup_cons]
      exact ⟨hq ▸ hn.1, hn.2⟩
    · rw [if_neg (by simpa using hq)]
      rw [List.map_cons, List.nodup_cons]
      refine ⟨?_, ih hn.2⟩
      intro hx
      rcases mem_keys_acInsertChan.mp hx with h | h
      · exact hn.1 h
      · exact hq h

theorem lookupAC_acInsertChan_self {m : List (String × List Nat)}
    {u : String} {ws : Nat} :
    lookupAC (acInsertChan m u ws) u =
      some (match lookupAC m u with
            | some l => if ws ∈ l then l else l ++ [ws]
            | none => [ws]) := by
  induction m with
  | nil =>
    unfold acInsertChan lookupAC
    rw [List.find?_cons_of_pos _ (by simp)]
    rfl
  | cons q rest ih =>
    unfold acInsertChan
    by_cases hq : q.fst = u
    · rw [if_pos (by simpa using hq)]
      unfold lookupAC
      rw [List.find?_cons_of_pos _ (by simp),
        List.find?_cons_of_pos _ (by simpa using hq)]
      simp
    · rw [if_neg (by simpa using hq)]
      unfold lookupAC at ih ⊢
      rw [List.find?_cons_of_neg _ (by simpa using hq),
        List.find?_cons_of_neg _ (by simpa using hq)]
      exact ih

theorem lookupAC_acInsertChan_other {m : List (String × List Nat)}
    {u x : String} {ws : Nat} (hne : x ≠ u) :
    lookupAC (acInsertChan m u ws) x = lookupAC m x := by
  induction m with
  | nil =>
    unfold acInsertChan lookupAC
    rw [List.find?_cons_of_neg _ (by simpa using Ne.symm hne)]
  | cons q rest ih =>
    unfold acInsertChan
    by_cases hq : q.fst = u
    · rw [if_pos (by simpa using hq)]
      unfold lookupAC
      rw [List.find?_cons_of_neg _ (by simpa using Ne.symm hne),
        List.find?_cons_of_neg _
          (by simp only [beq_iff_eq]; rw [hq]; exact Ne.symm hne)]
    · rw [if_neg (by simpa using hq)]
      by_cases hx : q.fst = x
      · unfold lookupAC
        rw [List.find?_cons_of_pos _ (by simpa using hx),
          List.find?_cons_of_pos _ (by simpa using hx)]
      · unfold lookupAC at ih ⊢
        rw [List.find?_cons_of_neg _ (by simpa using hx),
          List.find?_cons_of_neg _ (by simpa using hx)]
        exact ih

theorem mem_acInsertChan {m : List (String × List Nat)} {u : String}
    {ws : Nat} (hn : (m.map Prod.fst).Nodup) {p : String × List Nat}
    (h : p ∈ acInsertChan m u ws) :
    (p ∈ m ∧ p.fst ≠ u) ∨
      (p = (u, [ws]) ∧ lookupAC m u = none) ∨
      (∃ l0, lookupAC m u = some l0 ∧
        (p = (u, l0) ∨ p = (u, l0 ++ [ws]))) := by
  induction m with
  | nil =>
    right
    left
    constructor
    · simpa [acInsertChan] using h
    · rfl
  | cons q rest ih =>
    rw [List.map_cons, List.nodup_cons] at hn
    unfold acInsertChan at h
    by_cases hq : q.fst = u
    · rw [if_pos (by simpa using hq)] at h
      rcases List.mem_cons.mp h with h2 | h2
      · right
        right
        refine ⟨q.snd, ?_, ?_⟩
        · unfold lookupAC
          rw [List.find?_cons_of_pos _ (by simpa using hq)]
          rfl
        · rw [h2]
          split
          · exact Or.inl rfl
          · exact Or.inr rfl
      · left
        refine ⟨List.mem_cons_of_mem q h2, ?_⟩
        intro he
        exact hn.1 ((he.trans hq.symm) ▸ List.mem_map_of_mem Prod.fst h2)
    · rw [if_neg (by simpa using hq)] at h
      rcases List.mem_cons.mp h with h2 | h2
      · exact Or.inl ⟨by rw [h2]; exact List.mem_cons_self q rest, h2 ▸ hq⟩
      · rcases ih hn.2 h2 with ⟨hm, hne⟩ | ⟨he, hl⟩ | ⟨l0, hl, hor⟩
        · exact Or.inl ⟨List.mem_cons_of_mem q hm, hne⟩
        · refine Or.inr (Or.inl ⟨he, ?_⟩)
          unfold lookupAC at hl ⊢
          rw [List.find?_cons_of_neg _ (by simpa using hq)]
          exact hl
        · refine Or.inr (Or.inr ⟨l0, ?_, hor⟩)
          unfold lookupAC at hl ⊢
          rw [List.find?_cons_of_neg _ (by simpa using hq)]
          exact hl

theorem cuPop_fst {m : List (Nat × String)} {ws : Nat} :
    (cuPop m ws).fst = lookupCU m ws := by
  induction m with
  | nil => rfl
  | cons q rest ih =>
    unfold cuPop
    by_cases hq : q.fst = ws
    · rw [if_pos (by simpa using hq)]
      unfold lookupCU
      rw [List.find?_cons_of_pos _ (by simpa using hq)]
      rfl
    · rw [if_neg (by simpa using hq)]
      unfold lookupCU at ih ⊢
      rw [List.find?_cons_of_neg _ (by simpa using hq)]
      exact ih

theorem cuPop_not_mem {m : List (Nat × String)} {ws : Nat}
    (h : lookupCU m ws = none) : cuPop m ws = (none, m) := by
  induction m with
  | nil => rfl
  | cons q rest ih =>
    have hq : q.fst ≠ ws := by
      intro he
      rw [lookupCU_none_iff] at h
      exact h (he ▸ List.mem_map_of_mem Prod.fst (List.mem_cons_self q rest))
    unfold cuPop
    rw [if_neg (by simpa using hq)]
    have hrest : lookupCU rest ws = none := by
      unfold lookupCU at h ⊢
      rw [List.find?_cons_of_neg _ (by simpa using hq)] at h
      exact h
    rw [ih hrest]

theorem mem_cuPop_snd {m : List (Nat × String)} {ws : Nat}
    (hn : (m.map Prod.fst).Nodup) {q : Nat × String}
    (h : q ∈ (cuPop m ws).snd) : q ∈ m ∧ q.fst ≠ ws := by
  induction m with
  | nil => exact absurd h (List.not_mem_nil q)
  | cons r rest ih =>
    rw [List.map_cons, List.nodup_cons] at hn
    unfold cuPop at h
    by_cases hr : r.fst = ws
    · rw [if_pos (by simpa using hr)] at h
      simp only at h
      refine ⟨List.mem_cons_of_mem r h, ?_⟩
      intro he
      exact hn.1 ((he.trans hr.symm) ▸ List.mem_map_of_mem Prod.fst h)
    · rw [if_neg (by simpa using hr)] at h
      simp only at h
      rcases List.mem_cons.mp h with h2 | h2
      · exact ⟨by rw [h2]; exact List.mem_cons_self r rest, h2 ▸ hr⟩
      · obtain ⟨hm, hne⟩ := ih hn.2 h2
        exact ⟨List.mem_cons_of_mem r hm, hne⟩

theorem keys_cuPop_sublist {m : List (Nat × String)} {ws : Nat} :
    ((cuPop m ws).snd.map Prod.fst).Sublist (m.map Prod.fst) := by
  induction m with
  | nil => simp [cuPop]
  | cons q rest ih =>
    unfold cuPop
    by_cases hq : q.fst = ws
    · rw [if_pos (by simpa using hq)]
      simp only [List.map_cons]
      exact List.sublist_cons_self _ _
    · rw [if_neg (by simpa using hq)]
      simp only [List.map_cons]
      exact List.Sublist.cons₂ _ ih

theorem lookupCU_cuPop_self {m : List (Nat × String)} {ws : Nat}
    (hn : (m.map Prod.fst).Nodup) :
    lookupCU (cuPop m ws).snd ws = none := by
  rw [lookupCU_none_iff]
  intro hx
  rw [List.mem_map] at hx
  obtain ⟨q, hq, hqe⟩ := hx
  exact absurd hqe (mem_cuPop_snd hn hq).2

theorem lookupCU_cuPop_other {m : List (Nat × String)} {ws x : Nat}
    (hne : x ≠ ws) :
    lookupCU (cuPop m ws).snd x = lookupCU m x := by
  induction m with
  | nil => rfl
  | cons q rest ih =>
    unfold cuPop
    by_cases hq : q.fst = ws
    · rw [if_pos (by simpa using hq)]
      simp only []
      unfold lookupCU
      rw [List.find?_cons_of_neg _
        (by simp only [beq_iff_eq]; rw [hq]; exact Ne.symm hne)]
    · rw [if_neg (by simpa using hq)]
      simp only []
      by_cases hx : q.fst = x
      · unfold lookupCU
        rw [List.find?_cons_of_pos _ (by simpa using hx),
          List.find?_cons_of_pos _ (by simpa using hx)]
      · unfold lookupCU at ih ⊢
        rw [List.find?_cons_of_neg _ (by simpa using hx),
          List.find?_cons_of_neg _ (by simpa using hx)]
        exact ih

theorem lookupAC_none_iff {m : List (String × List Nat)} {u : String} :
    lookupAC m u = none ↔ u ∉ m.map Prod.fst := by
  unfold lookupAC
  rw [Option.map_eq_none', List.find?_eq_none]
  constructor
  · intro h hx
    rw [List.mem_map] at hx
    obtain ⟨q, hq, hqe⟩ := hx
    exact absurd (by simpa using hqe) (by simpa using h q hq)
  · intro h q hq
    simp only [beq_iff_eq]
    intro he
    exact h (he ▸ List.mem_map_of_mem Prod.fst hq)

theorem keys_acRemoveChan_sublist {m : List (String × List Nat)}
    {u : String} {ws : Nat} :
    ((acRemoveChan m u ws).map Prod.fst).Sublist (m.map Prod.fst) := by
  induction m with
  | nil => simp [acRemoveChan]
  | cons q rest ih =>
    unfold acRemoveChan
    by_cases hq : q.fst = u
    · rw [if_pos (by simpa using hq)]
      split
      · simp only [List.map_cons]
        exact List.sublist_cons_self _ _
      · simp only [List.map_cons, ← hq]
        exact List.Sublist.cons₂ _ (List.Sublist.refl _)
    · rw [if_neg (by simpa using hq)]
      simp only [List.map_cons]
      exact List.Sublist.cons₂ _ ih

theorem mem_acRemoveChan {m : List (String × List Nat)} {u : String}
    {ws : Nat} (hn : (m.map Prod.fst).Nodup) {p : String × List Nat}
    (h : p ∈ acRemoveChan m u ws) :
    (p ∈ m ∧ p.fst ≠ u) ∨
      (∃ l0, lookupAC m u = some l0 ∧ p = (u, l0.erase ws) ∧
        l0.erase ws ≠ []) := by
  induction m with
  | nil => exact absurd h (List.not_mem_nil p)
  | cons q rest ih =>
    rw [List.map_cons, List.nodup_cons] at hn
    unfold acRemoveChan at h
    by_cases hq : q.fst = u
    · rw [if_pos (by simpa using hq)] at h
      split at h
      · -- entry dropped: everything left is an untouched rest entry
        refine Or.inl ⟨List.mem_cons_of_mem q h, ?_⟩
        intro he
        exact hn.1 ((he.trans hq.symm) ▸ List.mem_map_of_mem Prod.fst h)
      · rcases List.mem_cons.mp h with h2 | h2
        · next hkeep =>
          refine Or.inr ⟨q.snd, ?_, h2, hkeep⟩
          unfold lookupAC
          rw [List.find?_cons_of_pos _ (by simpa using hq)]
          rfl
        · refine Or.inl ⟨List.mem_cons_of_mem q h2, ?_⟩
          intro he
          exact hn.1 ((he.trans hq.symm) ▸ List.mem_map_of_mem Prod.fst h2)
    · rw [if_neg (by simpa using hq)] at h
      rcases List.mem_cons.mp h with h2 | h2
      · exact Or.inl ⟨by rw [h2]; exact List.mem_cons_self q rest, h2 ▸ hq⟩
      · rcases ih hn.2 h2 with ⟨hm, hne⟩ | ⟨l0, hl, he, hk⟩
        · exact Or.inl ⟨List.mem_cons_of_mem q hm, hne⟩
        · refine Or.inr ⟨l0, ?_, he, hk⟩
          unfold lookupAC at hl ⊢
          rw [List.find?_cons_of_neg _ (by simpa using hq)]
          exact hl

theorem lookupAC_acRemoveChan_self {m : List (String × List Nat)}
    {u : String} {ws : Nat} (hn : (m.map Prod.fst).Nodup) :
    lookupAC (acRemoveChan m u ws) u =
      (match lookupAC m u with
       | some l0 => if l0.erase ws = [] then none else some (l0.erase ws)
       | none => none) := by
  induction m with
  | nil => rfl
  | cons q rest ih =>
    rw [List.map_cons, List.nodup_cons] at hn
    unfold acRemoveChan
    by_cases hq : q.fst = u
    · rw [if_pos (by simpa using hq)]
      have hqlk : lookupAC (q :: rest) u = some q.snd := by
        unfold lookupAC
        rw [List.find?_cons_of_pos _ (by simpa using hq)]
        rfl
      rw [hqlk]
      show lookupAC
          (if q.snd.erase ws = [] then rest else (u, q.snd.erase ws) :: rest) u =
        (if q.snd.erase ws = [] then none else some (q.snd.erase ws))
      by_cases hdrop : q.snd.erase ws = []
      · rw [if_pos hdrop, if_pos hdrop, lookupAC_none_iff]
        intro hx
        exact hn.1 (hq ▸ hx)
      · rw [if_neg hdrop, if_neg hdrop]
        unfold lookupAC
        rw [List.find?_cons_of_pos _ (by simp)]
        rfl
    · rw [if_neg (by simpa using hq)]
      have h1 : lookupAC (q :: rest) u = lookupAC rest u := by
        unfold lookupAC
        rw [List.find?_cons_of_neg _ (by simpa using hq)]
      rw [h1]
      unfold lookupAC
      rw [List.find?_cons_of_neg _ (by simpa using hq)]
      exact ih hn.2

theorem lookupAC_acRemoveChan_other {m : List (String × List Nat)}
    {u x : String} {ws : Nat} (hne : x ≠ u) :
    lookupAC (acRemoveChan m u ws) x = lookupAC m x := by
  induction m with
  | nil => rfl
  | cons q rest ih =>
    unfold acRemoveChan
    by_cases hq : q.fst = u
    · rw [if_pos (by simpa using hq)]
      split
      · unfold lookupAC
        rw [List.find?_cons_of_neg _
          (by simp only [beq_iff_eq]; rw [hq]; exact Ne.symm hne)]
      · unfold lookupAC
        rw [List.find?_cons_of_neg _ (by simpa using Ne.symm hne),
          List.find?_cons_of_neg _
            (by simp only [beq_iff_eq]; rw [hq]; exact Ne.symm hne)]
    · rw [if_neg (by simpa using hq)]
      by_cases hx : q.fst = x
      · unfold lookupAC
        rw [List.find?_cons_of_pos _ (by simpa using hx),
          List.find?_cons_of_pos _ (by simpa using hx)]
      · unfold lookupAC at ih ⊢
        rw [List.find?_cons_of_neg _ (by simpa using hx),
          List.find?_cons_of_neg _ (by simpa using hx)]
        exact ih

/-- Connecting a freshly accepted channel for an authenticated user
preserves the registry invariant. -/
theorem connect_registry_inv {cm : ConnectionManager} {ws : Nat}
    {u : String} (hInv : RegistryInv cm)
    (hfresh : lookupCU cm.connection_users ws = none) (hu : u ≠ "") :
    RegistryInv (cm.connect ws u) := by
  obtain ⟨I1, I2, I3, I4, I5, I6⟩ := hInv
  have hws_notin : ∀ p ∈ cm.active_connections, ws ∉ p.snd := by
    intro p hp hmem
    have h4 := I4 p hp ws hmem
    rw [h4] at hfresh
    exact Option.noConfusion hfresh
  unfold RegistryInv
  simp only [ConnectionManager.connect]
  refine ⟨?_, ?_, ?_, ?_, ?_, ?_⟩
  · exact nodup_keys_acInsertChan I1
  · exact nodup_keys_cuAssign I2
  · intro p hp
    rcases mem_acInsertChan I1 hp with ⟨hm, _⟩ | ⟨he, _⟩ | ⟨l0, hl, hor⟩
    · exact I3 p hm
    · rw [he]
      exact ⟨by simp, by simp⟩
    · have hm0 := mem_of_lookupAC hl
      have h3 := I3 _ hm0
      rcases hor with he | he
      · rw [he]
        exact h3
      · rw [he]
        refine ⟨by simp, ?_⟩
        simp only [List.nodup_append, List.nodup_cons, List.nodup_nil]
        refine ⟨h3.2, by simp, ?_⟩
        intro x hx
        simp only [List.mem_singleton]
        intro he2
        exact hws_notin _ hm0 (he2 ▸ hx)
  · intro p hp x hx
    rcases mem_acInsertChan I1 hp with ⟨hm, _⟩ | ⟨he, _⟩ | ⟨l0, hl, hor⟩
    · have hxw : x ≠ ws := fun he2 => hws_notin p hm (he2 ▸ hx)
      rw [lookupCU_cuAssign_other hxw]
      exact I4 p hm x hx
    · rw [he] at hx ⊢
      simp only [List.mem_singleton] at hx
      rw [hx, lookupCU_cuAssign_self]
    · have hm0 := mem_of_lookupAC hl
      rcases hor with he | he
      · rw [he] at hx ⊢
        have hxw : x ≠ ws := fun he2 => hws_notin _ hm0 (he2 ▸ hx)
        rw [lookupCU_cuAssign_other hxw]
        exact I4 _ hm0 x hx
      · rw [he] at hx ⊢
        rcases List.mem_append.mp hx with hx2 | hx2
        · have hxw : x ≠ ws := fun he2 => hws_notin _ hm0 (he2 ▸ hx2)
          rw [lookupCU_cuAssign_other hxw]
          exact I4 _ hm0 x hx2
        · simp only [List.mem_singleton] at hx2
          rw [hx2, lookupCU_cuAssign_self]
  · intro q hq
    rcases mem_cuAssign hq with hm | he
    · have hqw : q.fst ≠ ws := by
        intro he2
        rw [lookupCU_none_iff] at hfresh
        exact hfresh (he2 ▸ List.mem_map_of_mem Prod.fst hm)
      have h5 := I5 q hm
      by_cases hu2 : q.snd = u
      · rw [hu2] at h5 ⊢
        rw [lookupAC_acInsertChan_self]
        cases hl : lookupAC cm.active_connections u with
        | none => rw [hl] at h5; exact absurd h5 (List.not_mem_nil _)
        | some l =>
          rw [hl] at h5
          simp only [Option.getD_some] at h5 ⊢
          split
          · exact h5
          · exact List.mem_append_left _ h5
      · rw [lookupAC_acInsertChan_other hu2]
        exact h5
    · rw [he]
      simp only [Option.getD_some]
      rw [lookupAC_acInsertChan_self]
      cases hl : lookupAC cm.active_connections u with
      | none => simp
      | some l =>
        simp only [Option.getD_some]
        split
        · next hin => exact hin
        · exact List.mem_append_right _ (by simp)
  · intro p hp
    rcases mem_acInsertChan I1 hp with ⟨hm, _⟩ | ⟨he, _⟩ | ⟨l0, _, hor⟩
    · exact I6 p hm
    · rw [he]
      exact hu
    · rcases hor with he | he <;> (rw [he]; exact hu)

/-- Disconnecting a channel preserves the registry invariant. -/
theorem disconnect_registry_inv {cm : ConnectionManager} {ws : Nat}
    (hInv : RegistryInv cm) : RegistryInv (cm.disconnect ws) := by
  obtain ⟨I1, I2, I3, I4, I5, I6⟩ := hInv
  unfold ConnectionManager.disconnect
  simp only []
  cases hpop : (cuPop cm.connection_users ws).fst with
  | none =>
    have hlk : lookupCU cm.connection_users ws = none := by
      rw [← cuPop_fst, hpop]
    rw [cuPop_not_mem hlk]
    exact ⟨I1, I2, I3, I4, I5, I6⟩
  | some u0 =>
    have hlk : lookupCU cm.connection_users ws = some u0 := by
      rw [← cuPop_fst, hpop]
    have hq0 : (ws, u0) ∈ cm.connection_users := mem_of_lookupCU hlk
    have h5 := I5 _ hq0
    cases hl0 : lookupAC cm.active_connections u0 with
    | none => rw [hl0] at h5; exact absurd h5 (List.not_mem_nil _)
    | some l0 =>
      rw [hl0] at h5
      simp only [Option.getD_some] at h5
      have hm0 : (u0, l0) ∈ cm.active_connections := mem_of_lookupAC hl0
      have hu0 : u0 ≠ "" := I6 _ hm0
      have hl0n : l0.Nodup := (I3 _ hm0).2
      show RegistryInv
        (if u0 ≠ "" ∧ (lookupAC cm.active_connections u0).isSome = true then
          { active_connections := acRemoveChan cm.active_connections u0 ws,
            connection_users := (cuPop cm.connection_users ws).2 }
         else
          { active_connections := cm.active_connections,
            connection_users := (cuPop cm.connection_users ws).2 })
      rw [if_pos ⟨hu0, by rw [hl0]; rfl⟩]
      unfold RegistryInv
      simp only []
      refine ⟨?_, ?_, ?_, ?_, ?_, ?_⟩
      · exact List.Nodup.sublist keys_acRemoveChan_sublist I1
      · exact List.Nodup.sublist keys_cuPop_sublist I2
      · intro p hp
        rcases mem_acRemoveChan I1 hp with ⟨hm, _⟩ | ⟨l1, hl1, he, hk⟩
        · exact I3 p hm
        · rw [hl0] at hl1
          injection hl1 with hl1
          subst hl1
          rw [he]
          exact ⟨hk, List.Nodup.erase ws hl0n⟩
      · intro p hp x hx
        rcases mem_acRemoveChan I1 hp with ⟨hm, hne⟩ | ⟨l1, hl1, he, _⟩
        · have hxw : x ≠ ws := by
            intro he2
            have h4 := I4 p hm x hx
            rw [he2, hlk] at h4
            exact hne (Option.some.inj h4).symm
          rw [lookupCU_cuPop_other hxw]
          exact I4 p hm x hx
        · rw [hl0] at hl1
          injection hl1 with hl1
          subst hl1
          rw [he] at hx ⊢
          have hxl0 : x ∈ l0 := List.mem_of_mem_erase hx
          have hxw : x ≠ ws := (List.Nodup.mem_erase_iff hl0n).mp hx |>.1
          rw [lookupCU_cuPop_other hxw]
          exact I4 _ hm0 x hxl0
      · intro q hq
        obtain ⟨hqm, hqw⟩ := mem_cuPop_snd I2 hq
        have h5q := I5 q hqm
        by_cases hu2 : q.snd = u0
        · rw [hu2] at h5q ⊢
          rw [hl0] at h5q
          simp only [Option.getD_some] at h5q
          rw [lookupAC_acRemoveChan_self I1, hl0]
          have hqe : q.fst ∈ l0.erase ws :=
            (List.Nodup.mem_erase_iff hl0n).mpr ⟨hqw, h5q⟩
          show q.fst ∈
            (if l0.erase ws = [] then none else some (l0.erase ws)).getD []
          rw [if_neg (by intro he; rw [he] at hqe; exact List.not_mem_nil _ hqe)]
          exact hqe
        · rw [lookupAC_acRemoveChan_other hu2]
          exact h5q
      · intro p hp
        rcases mem_acRemoveChan I1 hp with ⟨hm, _⟩ | ⟨l1, _, he, _⟩
        · exact I6 p hm
        · rw [he]
          exact hu0

/-- The dead-channel cleanup of a send preserves the invariant. -/
theorem sendDead_registry_inv {cm : ConnectionManager} {u : String}
    {dead : List Nat} (hInv : RegistryInv cm) :
    RegistryInv (cm.sendDead u dead) := by
  unfold ConnectionManager.sendDead
  cases lookupAC cm.active_connections u with
  | none => exact hInv
  | some conns =>
    simp only []
    generalize (conns.filter (fun ws => ws ∈ dead)) = l
    induction l generalizing cm with
    | nil => exact hInv
    | cons ws rest ih =>
      rw [List.foldl_cons]
      exact ih (disconnect_registry_inv hInv)

theorem runOp_registry_inv {cm : ConnectionManager} {op : WsOp}
    (hInv : RegistryInv cm) (hok : okOp cm op) :
    RegistryInv (runOp cm op) := by
  cases op with
  | connect ws u => exact connect_registry_inv hInv hok.1 hok.2
  | disconnect ws => exact disconnect_registry_inv hInv
  | send u dead => exact sendDead_registry_inv hInv

theorem runOps_registry_inv :
    ∀ (ops : List WsOp) (cm : ConnectionManager), RegistryInv cm →
      okOps cm ops → RegistryInv (runOps cm ops) := by
  intro ops
  induction ops with
  | nil => intro cm h _; exact h
  | cons op rest ih =>
    intro cm h hok
    exact ih (runOp cm op) (runOp_registry_inv h hok.1) hok.2

/-- C10: after every sequence of connect, disconnect, and send
operations (each connect handling a fresh channel for an authenticated
user, as in the source websocket endpoint), the registry satisfies
`RegistryInv`: the two maps are mutually consistent — a channel is in
some user record's channel set iff the reverse map sends that channel
to that user — and no user id is ever mapped to an empty channel set
(the entry is dropped when the last channel goes, whether by
disconnect or by dead-channel cleanup during a send). -/
theorem C10_registry_invariant :
    ∀ ops : List WsOp, okOps initRegistry ops →
      RegistryInv (runOps initRegistry ops) := by
  intro ops hok
  exact runOps_registry_inv ops initRegistry (by decide) hok

/-- Witness for C10: a concrete trace with multi-channel connects, a
disconnect, a dead-channel send cleanup, and a disconnect of an
unknown channel. -/
theorem C10_registry_invariant_witness :
    okOps initRegistry
      [WsOp.connect 1 "ua", WsOp.connect 2 "ua", WsOp.connect 3 "ub",
       WsOp.disconnect 1, WsOp.send "ua" [2], WsOp.disconnect 9] ∧
    RegistryInv (runOps initRegistry
      [WsOp.connect 1 "ua", WsOp.connect 2 "ua", WsOp.connect 3 "ub",
       WsOp.disconnect 1, WsOp.send "ua" [2], WsOp.disconnect 9]) :=
  ⟨by decide,
   C10_registry_invariant
     [WsOp.connect 1 "ua", WsOp.connect 2 "ua", WsOp.connect 3 "ub",
      WsOp.disconnect 1, WsOp.send "ua" [2], WsOp.disconnect 9]
     (by decide)⟩

end TicketingSystem
